import Mathlib

/-!
Shallow embedding of the campaign dispatch and engagement-tracking subsystem of
the council-connect repository.  The functions below are translated from the
TypeScript sources:

* `src/lib/email-tracking.ts`   — open/unsubscribe recording, metrics, content
  processing (tracking pixel and unsubscribe footer injection);
* `src/components/email/EmailComposer.tsx` — `sendEmail` (recipient resolution,
  unsubscribe filtering, draft upsert);
* `src/components/lists/DistributionLists.tsx` — `getActiveContacts`,
  `parseCsvContacts` and the CSV-import classification inside `handleFileChange`;
* `src/components/email/UnsubscribePage.tsx` — the unsubscribe flow.

Modelling conventions: JavaScript strings are Lean `String`s (operated on via
their `List Char` data so that everything reduces in the kernel); ISO timestamp
strings produced by `new Date().toISOString()` and compared via `new Date(s)`
are modelled as `Nat` epoch values (ISO-8601 order agrees with epoch order);
the Spark key/value store is modelled by passing the stored lists explicitly;
`async` calls to the HTTP backend (which is not part of this repository) are
out of scope, as are toast notifications.
-/

/-! ### Generic character-list helpers (JS string semantics) -/

/-- Whitespace stripped by `String.prototype.trim` (ASCII part; the emails and
CSV fields this code handles are ASCII). -/
def isJsSpace (c : Char) : Bool :=
  c = ' ' || c = '\t' || c = '\n' || c = '\r' || c = '\x0b' || c = '\x0c'

/-- JS `s.trim()`. -/
def trimChars (s : List Char) : List Char :=
  ((s.dropWhile isJsSpace).reverse.dropWhile isJsSpace).reverse

/-- JS `s.toLowerCase()` (ASCII case folding, which is all this code relies on). -/
def toLowerChars (s : List Char) : List Char := s.map Char.toLower

/-- `email.trim().toLowerCase()` — the normalization applied to emails and CSV
headers throughout the sources. -/
def jsTrimLower (s : String) : String := ⟨toLowerChars (trimChars s.data)⟩

/-- `pat` is a prefix of `s` (char-exact). -/
def isPre : List Char → List Char → Bool
  | [], _ => true
  | _ :: _, [] => false
  | p :: ps, c :: cs => p = c && isPre ps cs

/-- `pat` is a prefix of `s` up to ASCII case (the semantics of a `/.../i`
regex literal over letters). -/
def isPreCI : List Char → List Char → Bool
  | [], _ => true
  | _ :: _, [] => false
  | p :: ps, c :: cs => Char.toLower c = Char.toLower p && isPreCI ps cs

/-- Number of positions of `s` at which `pat` occurs (JS `indexOf`-style
substring occurrences, counted at every start position). -/
def countSubstr (pat : List Char) : List Char → Nat
  | [] => if isPre pat [] then 1 else 0
  | c :: cs => (if isPre pat (c :: cs) then 1 else 0) + countSubstr pat cs

/-- JS `s.includes(pat)`. -/
def containsSubstr (pat : List Char) : List Char → Bool
  | [] => isPre pat []
  | c :: cs => isPre pat (c :: cs) || containsSubstr pat cs

/-- Case-insensitive substring test (whether `/pat/i` matches somewhere). -/
def containsCI (pat : List Char) : List Char → Bool
  | [] => isPreCI pat []
  | c :: cs => isPreCI pat (c :: cs) || containsCI pat cs

/-- JS `s.includes(pat)` on `String`s. -/
def jsIncludes (s pat : String) : Bool := containsSubstr pat.data s.data

/-- JS `s.replace(/pat/i, rep)` for a literal pattern: replace the leftmost
case-insensitive occurrence of `pat`, or return the string unchanged. -/
def replaceFirstCI (pat rep : List Char) : List Char → List Char
  | [] => []
  | c :: cs =>
    if isPreCI pat (c :: cs) then rep ++ (c :: cs).drop pat.length
    else c :: replaceFirstCI pat rep cs

/-- JS `s.split(c)` on a single-character separator. -/
def splitOnChar (sep : Char) : List Char → List (List Char)
  | [] => [[]]
  | c :: cs =>
    match splitOnChar sep cs with
    | cur :: rest => if c = sep then [] :: cur :: rest else (c :: cur) :: rest
    | [] => [[c]]

/-- Apply `f` to every element except the last one. -/
def mapInit (f : List Char → List Char) : List (List Char) → List (List Char)
  | [] => []
  | [x] => [x]
  | x :: xs => f x :: mapInit f xs

/-- Drop a single trailing carriage return. -/
def stripCr (l : List Char) : List Char :=
  if l.getLast? = some '\r' then l.dropLast else l

/-- JS `s.split(/\r?\n/)`: split on newlines, absorbing a carriage return that
immediately precedes a line feed (a trailing `\r` not followed by `\n` stays). -/
def splitLinesJs (s : String) : List String :=
  (mapInit stripCr (splitOnChar '\n' s.data)).map (fun l => ⟨l⟩)

/-- JS `s.split(',')`. -/
def splitComma (s : String) : List String :=
  (splitOnChar ',' s.data).map (fun l => ⟨l⟩)

/-! ### `src/lib/email-tracking.ts` — data shapes -/

/-- `EmailTrackingData` (timestamps as epoch numbers, see module docstring). -/
structure EmailTrackingData where
  emailId : String
  recipientEmail : String
  openedAt : Option Nat := none
  unsubscribedAt : Option Nat := none
  userAgent : Option String := none
  ipAddress : Option String := none
  deriving Repr, DecidableEq

/-- `EmailMetrics`; the three rate fields are JS floating-point percentages,
modelled exactly in `ℚ` (the divisions involved are exact in the source's
value range of interest and none of the verified claims concerns rounding). -/
structure EmailMetrics where
  emailId : String
  totalSent : Nat
  totalOpened : Nat
  totalUnsubscribed : Nat
  openRate : ℚ
  uniqueOpenRate : ℚ
  unsubscribeRate : ℚ
  opens : List EmailTrackingData
  uniqueOpens : List EmailTrackingData
  unsubscribes : List EmailTrackingData
  deriving Repr, DecidableEq

/-- `recordEmailOpen` (lines 138–167): the aggregated per-campaign opens list
stored under `email-opens:<emailId>` is appended to only when no event for the
same `recipientEmail` is present yet ("Check if already opened to avoid
duplicates").  The per-call `tracking:<trackingId>` record also written there
is never read back by `getEmailMetrics` and is not modelled. -/
def recordEmailOpen (emailId recipientEmail : String) (openedAt : Nat)
    (userAgent ipAddress : Option String)
    (existingOpens : List EmailTrackingData) : List EmailTrackingData :=
  let tracking : EmailTrackingData :=
    { emailId := emailId, recipientEmail := recipientEmail,
      openedAt := some openedAt, userAgent := userAgent, ipAddress := ipAddress }
  let alreadyOpened := existingOpens.any (fun o => o.recipientEmail = recipientEmail)
  if alreadyOpened then existingOpens else existingOpens ++ [tracking]

/-- Fire the open pixel once per element of `fires` (timestamp, userAgent,
ipAddress), starting from an empty opens list. -/
def fireOpens (emailId recipientEmail : String)
    (fires : List (Nat × Option String × Option String)) : List EmailTrackingData :=
  fires.foldl (fun opens f => recordEmailOpen emailId recipientEmail f.1 f.2.1 f.2.2 opens) []

/-- State touched by `recordUnsubscribe`: the per-tenant `unsubscribed-emails`
string list (the suppression list) and the per-campaign
`email-unsubscribes:<emailId>` event list. -/
structure UnsubscribeState where
  unsubscribedEmails : List String
  unsubscribeEvents : List EmailTrackingData
  deriving Repr, DecidableEq

/-- `recordUnsubscribe` (lines 172–193): add the raw `recipientEmail` to the
suppression list unless the identical string is already present
(`currentUnsubscribed.includes(recipientEmail)`), and always append an
unsubscribe event. -/
def recordUnsubscribe (emailId recipientEmail : String) (unsubscribedAt : Nat)
    (st : UnsubscribeState) : UnsubscribeState :=
  let tracking : EmailTrackingData :=
    { emailId := emailId, recipientEmail := recipientEmail,
      unsubscribedAt := some unsubscribedAt }
  let unsubscribed' :=
    if st.unsubscribedEmails.contains recipientEmail then st.unsubscribedEmails
    else st.unsubscribedEmails ++ [recipientEmail]
  { unsubscribedEmails := unsubscribed',
    unsubscribeEvents := st.unsubscribeEvents ++ [tracking] }

/-- `new Date(a || '') < new Date(b || '')`: a comparison involving a missing
timestamp is a NaN comparison, hence `false`. -/
def dateLt (a b : Option Nat) : Bool :=
  match a, b with
  | some x, some y => decide (x < y)
  | _, _ => false

/-- JS `Map.prototype.set`: replace in place if the key exists (preserving
insertion order), else append. -/
def mapSet (m : List (String × EmailTrackingData)) (k : String)
    (v : EmailTrackingData) : List (String × EmailTrackingData) :=
  match m with
  | [] => [(k, v)]
  | (k', v') :: rest => if k' = k then (k, v) :: rest else (k', v') :: mapSet rest k v

/-- JS `Map.prototype.get` as an option. -/
def mapGet (m : List (String × EmailTrackingData)) (k : String) :
    Option EmailTrackingData :=
  match m with
  | [] => none
  | (k', v') :: rest => if k' = k then some v' else mapGet rest k

/-- One iteration of the `opens.forEach` loop building `uniqueOpensMap`
(lines 221–227): keep the entry with the strictly smaller timestamp. -/
def uniqueOpensStep (m : List (String × EmailTrackingData))
    (o : EmailTrackingData) : List (String × EmailTrackingData) :=
  match mapGet m o.recipientEmail with
  | none => mapSet m o.recipientEmail o
  | some cur => if dateLt o.openedAt cur.openedAt then mapSet m o.recipientEmail o else m

/-- The `uniqueOpensMap` of `getEmailMetrics`. -/
def uniqueOpensMap (opens : List EmailTrackingData) :
    List (String × EmailTrackingData) :=
  opens.foldl uniqueOpensStep []

/-- `getEmailMetrics` (lines 198–242), given the stored opens and unsubscribes
lists for the campaign. -/
def getEmailMetrics (emailId : String) (totalSent : Nat)
    (opens unsubscribes : List EmailTrackingData) : EmailMetrics :=
  let uniqueOpens := (uniqueOpensMap opens).map Prod.snd
  { emailId := emailId
    totalSent := totalSent
    totalOpened := opens.length
    totalUnsubscribed := unsubscribes.length
    openRate := if totalSent > 0 then (opens.length : ℚ) / totalSent * 100 else 0
    uniqueOpenRate := if totalSent > 0 then (uniqueOpens.length : ℚ) / totalSent * 100 else 0
    unsubscribeRate := if totalSent > 0 then (unsubscribes.length : ℚ) / totalSent * 100 else 0
    opens := opens
    uniqueOpens := uniqueOpens
    unsubscribes := unsubscribes }

/-! ### URL construction (`createUnsubscribeUrl`, `createTrackingPixelUrl`) -/

/-- Characters kept verbatim by `URLSearchParams` serialization
(`application/x-www-form-urlencoded`). -/
def isUnreservedFormChar (c : Char) : Bool :=
  ('A' ≤ c && c ≤ 'Z') || ('a' ≤ c && c ≤ 'z') || ('0' ≤ c && c ≤ '9') ||
  c = '*' || c = '-' || c = '.' || c = '_'

/-- Upper-case hexadecimal digit. -/
def hexDigit (n : Nat) : Char :=
  if n < 10 then Char.ofNat ('0'.toNat + n) else Char.ofNat ('A'.toNat + (n - 10))

/-- UTF-8 bytes of a scalar value. -/
def utf8Bytes (c : Char) : List Nat :=
  let n := c.toNat
  if n < 0x80 then [n]
  else if n < 0x800 then [0xC0 + n / 64, 0x80 + n % 64]
  else if n < 0x10000 then [0xE0 + n / 4096, 0x80 + n / 64 % 64, 0x80 + n % 64]
  else [0xF0 + n / 262144, 0x80 + n / 4096 % 64, 0x80 + n / 64 % 64, 0x80 + n % 64]

/-- `%XX` percent-encoding of one byte. -/
def percentEncodeByte (b : Nat) : List Char := ['%', hexDigit (b / 16), hexDigit (b % 16)]

/-- `application/x-www-form-urlencoded` encoding of one character. -/
def formUrlEncodeChar (c : Char) : List Char :=
  if isUnreservedFormChar c then [c]
  else if c = ' ' then ['+']
  else (utf8Bytes c).flatMap percentEncodeByte

/-- `application/x-www-form-urlencoded` encoding of a string. -/
def formUrlEncode (s : String) : String := ⟨s.data.flatMap formUrlEncodeChar⟩

/-- Join with `'&'` (the `URLSearchParams.toString` separator). -/
def joinAmp : List String → String
  | [] => ""
  | [p] => p
  | p :: rest => p ++ "&" ++ joinAmp rest

/-- `URLSearchParams.toString()` for an ordered key/value list. -/
def searchParamsToString (params : List (String × String)) : String :=
  joinAmp (params.map (fun p => formUrlEncode p.1 ++ "=" ++ formUrlEncode p.2))

/-- JS truthiness of an optional string (`undefined` and `''` are falsy). -/
def optTruthy (v : Option String) : Option String :=
  match v with
  | some s => if s.isEmpty then none else some s
  | none => none

/-- The query parameters built by both URL constructors: `email` always, then
`campaignId`, `contactId`, `councillorId` when truthy. -/
def trackingParams (recipientEmail : String)
    (campaignId contactId councillorId : Option String) : List (String × String) :=
  [("email", recipientEmail)]
    ++ (match optTruthy campaignId with | some c => [("campaignId", c)] | none => [])
    ++ (match optTruthy contactId with | some c => [("contactId", c)] | none => [])
    ++ (match optTruthy councillorId with | some c => [("councillorId", c)] | none => [])

/-- `import.meta.env?.VITE_API_BASE_URL || 'http://localhost:7071/api'`. -/
def apiBaseUrlOf (configuredApiUrl : Option String) : String :=
  match configuredApiUrl with
  | some s => if s.isEmpty then "http://localhost:7071/api" else s
  | none => "http://localhost:7071/api"

/-- `createUnsubscribeUrl` (lines 37–52); `emailId` is accepted but unused,
exactly as in the source. -/
def createUnsubscribeUrl (configuredApiUrl : Option String)
    (emailId recipientEmail : String)
    (campaignId contactId councillorId : Option String) : String :=
  apiBaseUrlOf configuredApiUrl ++ "/unsubscribe?"
    ++ searchParamsToString (trackingParams recipientEmail campaignId contactId councillorId)

/-- `createTrackingPixelUrl` (lines 57–72). -/
def createTrackingPixelUrl (configuredApiUrl : Option String)
    (emailId recipientEmail : String)
    (campaignId contactId councillorId : Option String) : String :=
  apiBaseUrlOf configuredApiUrl ++ "/track/pixel?"
    ++ searchParamsToString (trackingParams recipientEmail campaignId contactId councillorId)

/-! ### `processEmailContent` (lines 77–133) -/

/-- The optional `userProfile` argument of `processEmailContent`. -/
structure UserProfile where
  name : Option String := none
  ward : Option String := none
  deriving Repr, DecidableEq

/-- JS string interpolation of a possibly-undefined value. -/
def jsUndefined (v : Option String) : String := v.getD "undefined"

/-- `senderInfo` (line 93): profile name, optionally ` - ward`, else the
`'Municipal Office'` fallback. -/
def senderInfoOf (userProfile : Option UserProfile) : String :=
  match userProfile with
  | some up =>
    jsUndefined up.name ++
      (match up.ward with
       | some w => if w.isEmpty then "" else " - " ++ w
       | none => "")
  | none => "Municipal Office"

/-- Literal prefix of the tracking pixel `<img>` tag (line 90). -/
def pixelP1 : String := "<img src=\""

/-- Literal suffix of the tracking pixel `<img>` tag (line 90). -/
def pixelP2 : String :=
  "\" width=\"1\" height=\"1\" style=\"display:block;border:0;outline:none;text-decoration:none;\" alt=\"\" />"

/-- The tracking pixel tag for a given pixel URL. -/
def trackingPixelOf (trackingPixelUrl : String) : String :=
  pixelP1 ++ trackingPixelUrl ++ pixelP2

/-- Footer template up to the interpolated `senderInfo` (lines 94–97). -/
def footerF1 : String :=
  "\n    <div style=\"margin-top: 40px; padding-top: 20px; border-top: 1px solid #e5e7eb; font-size: 12px; color: #6b7280; line-height: 1.4;\">\n      <p style=\"margin: 0 0 8px 0;\">\n        This email was sent by "

/-- Footer template between `senderInfo` and the unsubscribe URL (lines 97–101). -/
def footerF2 : String :=
  ". \n      </p>\n      <p style=\"margin: 0;\">\n        If you no longer wish to receive these communications, you can \n        <a href=\""

/-- Footer template after the unsubscribe URL (lines 101–104). -/
def footerF3 : String :=
  "\" style=\"color: #3b82f6; text-decoration: underline;\">unsubscribe here</a>.\n      </p>\n    </div>\n  "

/-- The unsubscribe footer for given sender info and unsubscribe URL. -/
def unsubscribeFooterOf (senderInfo unsubscribeUrl : String) : String :=
  footerF1 ++ senderInfo ++ footerF2 ++ unsubscribeUrl ++ footerF3

/-- `content.replace(/\n/g, '<br>')` (line 107). -/
def replaceNewlinesWithBr (s : String) : String :=
  ⟨s.data.flatMap (fun c => if c = '\n' then "<br>".data else [c])⟩

/-- `content.includes('<') ? content : content.replace(/\n/g, '<br>')`. -/
def htmlContentOf (content : String) : String :=
  if jsIncludes content "<" then content else replaceNewlinesWithBr content

/-- Wrapper template before the interpolated content (lines 111–117). -/
def wrapW1 : String :=
  "\n      <html>\n        <head>\n          <meta charset=\"utf-8\">\n          <meta name=\"viewport\" content=\"width=device-width, initial-scale=1.0\">\n        </head>\n        <body style=\"font-family: Arial, sans-serif; line-height: 1.6; color: #333; max-width: 600px; margin: 0 auto; padding: 20px;\">\n          "

/-- Separator between the interpolated pieces of the wrapper template. -/
def wrapSep : String := "\n          "

/-- Wrapper template after the tracking pixel (lines 121–123). -/
def wrapW2 : String := "\n        </body>\n      </html>\n    "

/-- `processEmailContent` (lines 77–133). -/
def processEmailContent (configuredApiUrl : Option String)
    (content emailId recipientEmail : String)
    (userProfile : Option UserProfile)
    (campaignId contactId councillorId : Option String) : String :=
  let unsubscribeUrl :=
    createUnsubscribeUrl configuredApiUrl emailId recipientEmail campaignId contactId councillorId
  let trackingPixelUrl :=
    createTrackingPixelUrl configuredApiUrl emailId recipientEmail campaignId contactId councillorId
  let trackingPixel := trackingPixelOf trackingPixelUrl
  let senderInfo := senderInfoOf userProfile
  let unsubscribeFooter := unsubscribeFooterOf senderInfo unsubscribeUrl
  let htmlContent := htmlContentOf content
  if !(jsIncludes htmlContent "<html>") && !(jsIncludes htmlContent "<body>") then
    wrapW1 ++ htmlContent ++ wrapSep ++ unsubscribeFooter ++ wrapSep ++ trackingPixel ++ wrapW2
  else
    ⟨replaceFirstCI "</body>".data (unsubscribeFooter ++ trackingPixel ++ "</body>").data
      htmlContent.data⟩

/-! ### `src/components/lists/DistributionLists.tsx` — contacts and CSV import -/

/-- `Contact`. -/
structure Contact where
  id : String
  email : String
  firstName : String
  lastName : String
  addedAt : String
  deriving Repr, DecidableEq

/-- `DistributionList`. -/
structure DistributionList where
  id : String
  name : String
  description : String := ""
  contacts : List Contact
  deriving Repr, DecidableEq

/-- `getActiveContacts` (lines 242–244): filter out contacts whose email is
literally contained in the `unsubscribed-emails` list. -/
def getActiveContacts (unsubscribedEmails : List String)
    (contacts : List Contact) : List Contact :=
  contacts.filter (fun contact => !(unsubscribedEmails.contains contact.email))

/-- `EMAIL_REGEX = /^[^\s@]+@[^\s@]+\.[^\s@]+$/` — `s` matches iff it has no
whitespace, exactly one `'@'`, a nonempty local part, and a `'.'` strictly
inside the domain part. -/
def emailRegexTest (s : String) : Bool :=
  let cs := s.data
  let localPart := cs.takeWhile (fun c => c ≠ '@')
  let domain := (cs.dropWhile (fun c => c ≠ '@')).drop 1
  cs.all (fun c => !isJsSpace c) && (cs.count '@' == 1) &&
    !localPart.isEmpty && (domain.drop 1).dropLast.contains '.'

/-- One row parsed from the CSV import file. -/
structure CsvRow where
  firstName : String
  lastName : String
  email : String
  deriving Repr, DecidableEq

/-- `parseCsvContacts` (lines 359–388): split into nonblank lines, resolve the
required header names (case-insensitively, by `indexOf` over the trimmed
lower-cased header cells), then split every subsequent line on plain commas,
trim each cell, and select cells by the header indexes (missing cells default
to the empty string). -/
def parseCsvContacts (csvContent : String) : Except String (List CsvRow) :=
  let lines := (splitLinesJs csvContent).filter (fun line => !(trimChars line.data).isEmpty)
  match lines with
  | [] => .ok []
  | line0 :: rest =>
    let headers := (splitComma line0).map jsTrimLower
    match headers.findIdx? (· = "firstname"), headers.findIdx? (· = "lastname"),
        headers.findIdx? (· = "email") with
    | some fi, some li, some ei =>
      .ok (rest.filterMap (fun row =>
        if (trimChars row.data).isEmpty then none
        else
          let columns := (splitComma row).map (fun col => (⟨trimChars col.data⟩ : String))
          some { firstName := columns.getD fi "", lastName := columns.getD li "",
                 email := columns.getD ei "" }))
    | _, _, _ => .error "CSV is missing required headers: firstName, lastName, email"

/-- A row fails the shape check of `handleFileChange` (line 420):
blank first or last name, or email failing `EMAIL_REGEX`. -/
def rowInvalid (row : CsvRow) : Bool :=
  (trimChars row.firstName.data).isEmpty || (trimChars row.lastName.data).isEmpty ||
    !emailRegexTest row.email

/-- Accumulator of the row-classification loop in `handleFileChange`
(lines 411–431). -/
structure ImportClassification where
  validEntries : List CsvRow
  seenInImport : List String
  skippedDuplicates : Nat
  skippedInvalid : Nat
  deriving Repr, DecidableEq

/-- One iteration of the `parsed.forEach` classification loop (lines 418–431). -/
def importStep (existingEmails : List String) (st : ImportClassification)
    (row : CsvRow) : ImportClassification :=
  let normalizedEmail := jsTrimLower row.email
  if rowInvalid row then { st with skippedInvalid := st.skippedInvalid + 1 }
  else if existingEmails.contains normalizedEmail || st.seenInImport.contains normalizedEmail then
    { st with skippedDuplicates := st.skippedDuplicates + 1 }
  else
    { st with
      seenInImport := st.seenInImport ++ [normalizedEmail],
      validEntries := st.validEntries ++
        [{ firstName := (⟨trimChars row.firstName.data⟩ : String),
           lastName := (⟨trimChars row.lastName.data⟩ : String),
           email := (⟨trimChars row.email.data⟩ : String) }] }

/-- The row classification of `handleFileChange`: `existingEmails` is the set
`targetList.contacts.map(c => c.email.trim().toLowerCase())` (line 411). -/
def classifyImportRows (existingEmails : List String)
    (parsed : List CsvRow) : ImportClassification :=
  parsed.foldl (importStep existingEmails) ⟨[], [], 0, 0⟩

/-- `existingEmails` as computed on line 411. -/
def existingEmailsOf (contacts : List Contact) : List String :=
  contacts.map (fun c => jsTrimLower c.email)

/-- The KV-mode tail of `handleFileChange` (lines 450–477): the valid entries
are materialized as contacts (`mkId`/`mkAddedAt` abstract `crypto.randomUUID`
and `new Date(Date.now() + index)`) and appended to the target list. -/
def handleFileChangeKv (contacts : List Contact) (parsed : List CsvRow)
    (mkId : Nat → String) (mkAddedAt : Nat → String) :
    List Contact × ImportClassification :=
  let cls := classifyImportRows (existingEmailsOf contacts) parsed
  let addedContacts := cls.validEntries.enum.map (fun p =>
    { id := mkId p.1, email := p.2.email, firstName := p.2.firstName,
      lastName := p.2.lastName, addedAt := mkAddedAt p.1 })
  (contacts ++ addedContacts, cls)

/-! ### `src/components/email/EmailComposer.tsx` — `sendEmail` -/

/-- `Email` as stored in the `email-drafts` list. -/
structure Email where
  id : String
  subject : String
  content : String
  selectedLists : List String
  status : String
  createdAt : String
  sentAt : Option String := none
  totalRecipients : Option Nat := none
  processedContent : Option String := none
  deriving Repr, DecidableEq

/-- The slice of component state read and written by `sendEmail`. -/
structure ComposerState where
  drafts : List Email
  kvDistributionLists : List DistributionList
  apiDistributionLists : List DistributionList
  unsubscribedEmails : List String
  deriving Repr, DecidableEq

/-- `effectiveLists.filter(list => selectedLists.includes(list.id))` (line 180). -/
def selectedDistributionListsOf (effectiveLists : List DistributionList)
    (selectedLists : List String) : List DistributionList :=
  effectiveLists.filter (fun list => selectedLists.contains list.id)

/-- `allRecipients = selectedDistributionLists.flatMap(list => list.contacts)`
(line 181): plain concatenation of the selected lists' contacts, in list
order, with no deduplication. -/
def allRecipientsOf (effectiveLists : List DistributionList)
    (selectedLists : List String) : List Contact :=
  (selectedDistributionListsOf effectiveLists selectedLists).flatMap (fun list => list.contacts)

/-- `activeRecipients` (line 182): drop contacts whose email string is
literally `includes`-contained in `unsubscribed-emails`. -/
def activeRecipientsOf (effectiveLists : List DistributionList)
    (selectedLists : List String) (unsubscribedEmails : List String) : List Contact :=
  (allRecipientsOf effectiveLists selectedLists).filter
    (fun contact => !(unsubscribedEmails.contains contact.email))

/-- Result of a `sendEmail` invocation. -/
inductive SendOutcome where
  /-- Guard at line 173: missing subject, content, or list selection. -/
  | missingFields
  /-- KV-mode guard at line 187: empty `activeRecipients` is rejected. -/
  | noActiveRecipients
  /-- API mode with empty `activeRecipients`: line 200 takes
  `activeRecipients[0]` (`undefined`) and line 201 reads `.email` from it,
  throwing a `TypeError` before any state is written. -/
  | typeErrorOnEmptySample
  /-- The email that was recorded as sent. -/
  | sent (email : Email)
  deriving Repr, DecidableEq

/-- `setDrafts` update (lines 215–224): replace the first draft with the same
id, else append. -/
def upsertDraft (drafts : List Email) (email : Email) : List Email :=
  match drafts.findIdx? (fun d => d.id = email.id) with
  | some i => drafts.set i email
  | none => drafts ++ [email]

/-- `sendEmail` (lines 172–247).  `currentDraft` is the optional id of the
loaded draft, `now` the ISO timestamp produced by `new Date().toISOString()`,
`nowId` the `Date.now().toString()` fallback id.  The API-mode
`apiClient.createCampaign` call goes to the backend (outside this repository)
and has no effect on the modelled state. -/
def sendEmail (kvTestMode : Bool) (configuredApiUrl : Option String)
    (subject content : String) (selectedLists : List String)
    (currentDraft : Option String) (user : Option UserProfile)
    (now nowId : String) (st : ComposerState) : SendOutcome × ComposerState :=
  if (trimChars subject.data).isEmpty || (trimChars content.data).isEmpty ||
      selectedLists.isEmpty then
    (SendOutcome.missingFields, st)
  else
    let effectiveLists := if kvTestMode then st.kvDistributionLists else st.apiDistributionLists
    let activeRecipients := activeRecipientsOf effectiveLists selectedLists st.unsubscribedEmails
    if activeRecipients.isEmpty && kvTestMode then (SendOutcome.noActiveRecipients, st)
    else
      match activeRecipients with
      | [] => (SendOutcome.typeErrorOnEmptySample, st)
      | sampleRecipient :: _ =>
        let emailId := currentDraft.getD nowId
        let processedContent :=
          processEmailContent configuredApiUrl content emailId sampleRecipient.email user
            none none none
        let createdAt :=
          match currentDraft with
          | some cd =>
            match st.drafts.find? (fun d => d.id = cd) with
            | some d => if d.createdAt.isEmpty then now else d.createdAt
            | none => now
          | none => now
        let email : Email :=
          { id := emailId, subject := subject, content := content,
            selectedLists := selectedLists, status := "sent", createdAt := createdAt,
            sentAt := some now, totalRecipients := some activeRecipients.length,
            processedContent := some processedContent }
        (SendOutcome.sent email, { st with drafts := upsertDraft st.drafts email })

/-! ### Auxiliary definitions used by the verification below -/

/-- Occurrences of `pat` starting inside `a` when `a` is followed by `b`
(including occurrences that straddle the boundary). -/
def countFrom (pat b : List Char) : List Char → Nat
  | [] => 0
  | c :: cs => (if isPre pat ((c :: cs) ++ b) then 1 else 0) + countFrom pat b cs

/-- No shifted suffix of `pat` (other than `pat` itself) is a prefix of `B`.
With `B := pat` this says `pat` has no nontrivial self-overlap. -/
def noTailPre (pat B : List Char) : Bool :=
  (List.range pat.length).all (fun k => k == 0 || !(isPre (pat.drop k) B))

/-- `c` differs from every character of `pat.drop 1`. -/
def headNotTail (pat : List Char) (c : Char) : Bool :=
  (pat.drop 1).all (fun x => x ≠ c)

/-- The final `pat.length - 1` characters of `a`. -/
def sufTail (a pat : List Char) : List Char :=
  a.drop (a.length - (pat.length - 1))

/-- No suffix of `a` shorter than `pat` is a prefix of `pat`. -/
def noSufPre (a pat : List Char) : Bool :=
  (List.range (sufTail a pat).length).all (fun j => !(isPre ((sufTail a pat).drop j) pat))

/-- The query path of the tracking-pixel URL; inside the output of
`processEmailContent` it occurs exactly at the `src` of the injected tracking
pixel `<img>` tag. -/
def trackPathToken : List Char := "/track/pixel?".data

/-- The query path of the unsubscribe URL; inside the output of
`processEmailContent` it occurs exactly at the `href` of the injected
unsubscribe link. -/
def unsubPathToken : List Char := "/unsubscribe?".data

/-- Reference count of rows that the import classification should report as
duplicates, with the earlier rows of the batch made explicit: a valid row is a
duplicate when its normalized email is already among the existing list emails
or equals the normalized email of some earlier valid row of the batch. -/
def dupCountAux (existingEmails : List String) (prefixRows : List CsvRow) :
    List CsvRow → Nat
  | [] => 0
  | r :: rs =>
    (if !rowInvalid r &&
        (existingEmails.contains (jsTrimLower r.email) ||
          prefixRows.any (fun q => !rowInvalid q && jsTrimLower q.email == jsTrimLower r.email))
      then 1 else 0)
      + dupCountAux existingEmails (prefixRows ++ [r]) rs

/-- Reference duplicate count for a whole batch. -/
def dupCountSpec (existingEmails : List String) (rows : List CsvRow) : Nat :=
  dupCountAux existingEmails [] rows

/-- Timestamp of an open event (the events written by `recordEmailOpen` always
carry one). -/
def tsOf (o : EmailTrackingData) : Nat := o.openedAt.getD 0

/-- `content.replace(/\n/g, '<br>')` rewritten per character (same function as
`replaceNewlinesWithBr`, exposed on single characters for the proofs below). -/
def brChar (c : Char) : List Char := if c = '\n' then "<br>".data else [c]

/-- A concrete list of open events used to instantiate the metrics theorems. -/
def uoWitnessOpens : List EmailTrackingData :=
  [{ emailId := "c", recipientEmail := "r1", openedAt := some 5 },
   { emailId := "c", recipientEmail := "r1", openedAt := some 3 }]

/-! ## Verification

Generic lemmas first, then one theorem per verified claim (with a witness or
counterexample where applicable). -/

/-! ### C1 — repeated pixel fires for one recipient -/

theorem recordEmailOpen_of_any (emailId r : String) (t : Nat) (ua ip : Option String)
    (opens : List EmailTrackingData)
    (h : opens.any (fun o => o.recipientEmail = r) = true) :
    recordEmailOpen emailId r t ua ip opens = opens := by
  simp [recordEmailOpen, h]

theorem foldl_recordEmailOpen_fix (emailId r : String) (opens : List EmailTrackingData)
    (h : opens.any (fun o => o.recipientEmail = r) = true) :
    ∀ fires : List (Nat × Option String × Option String),
      fires.foldl (fun acc f => recordEmailOpen emailId r f.1 f.2.1 f.2.2 acc) opens = opens
  | [] => rfl
  | f :: fs => by
    rw [List.foldl_cons, recordEmailOpen_of_any emailId r f.1 f.2.1 f.2.2 opens h,
      foldl_recordEmailOpen_fix emailId r opens h fs]

theorem fireOpens_eq_single (emailId r : String) (f : Nat × Option String × Option String)
    (fs : List (Nat × Option String × Option String)) :
    fireOpens emailId r (f :: fs) =
      [{ emailId := emailId, recipientEmail := r, openedAt := some f.1,
         userAgent := f.2.1, ipAddress := f.2.2 }] := by
  unfold fireOpens
  rw [List.foldl_cons]
  have h1 : recordEmailOpen emailId r f.1 f.2.1 f.2.2 [] =
      [{ emailId := emailId, recipientEmail := r, openedAt := some f.1,
         userAgent := f.2.1, ipAddress := f.2.2 }] := by
    simp [recordEmailOpen]
  rw [h1]
  exact foldl_recordEmailOpen_fix emailId r _ (by simp) fs

/-- Claim C1 (counterexample): firing the pixel twice for one recipient leaves
`totalOpened = 1`, not `2` — `recordEmailOpen` deduplicates by recipient before
appending to the stored opens list, so the total-opens metric does not count
every firing. -/
theorem openPixel_double_fire_total_ne_two :
    (getEmailMetrics "c1" 5 (fireOpens "c1" "a@x.com" [(1, none, none), (2, none, none)]) []).totalOpened = 1 ∧
    (getEmailMetrics "c1" 5 (fireOpens "c1" "a@x.com" [(1, none, none), (2, none, none)]) []).totalOpened ≠ 2 := by
  constructor <;> decide

/-- Claim C1 (amended): firing the open pixel `N ≥ 1` times for the same
campaign and recipient yields `totalOpens = 1` (not `N`) and `uniqueOpens`
containing exactly one record: the stored opens list is deduplicated by
recipient at record time, so both metrics collapse to one per recipient. -/
theorem openPixel_repeat_total_and_unique_one (emailId r : String) (totalSent : Nat)
    (unsubs : List EmailTrackingData)
    (fires : List (Nat × Option String × Option String)) (h : fires ≠ []) :
    (getEmailMetrics emailId totalSent (fireOpens emailId r fires) unsubs).totalOpened = 1 ∧
    (getEmailMetrics emailId totalSent (fireOpens emailId r fires) unsubs).uniqueOpens.length = 1 := by
  obtain ⟨f, fs, rfl⟩ : ∃ f fs, fires = f :: fs := by
    cases fires with
    | nil => exact absurd rfl h
    | cons f fs => exact ⟨f, fs, rfl⟩
  rw [fireOpens_eq_single]
  constructor
  · rfl
  · simp [getEmailMetrics, uniqueOpensMap, uniqueOpensStep, mapGet, mapSet]

/-- Witness for `openPixel_repeat_total_and_unique_one` at one concrete fire. -/
theorem openPixel_repeat_witness :
    (getEmailMetrics "c1" 3 (fireOpens "c1" "a@x.com" [(7, none, none)]) []).totalOpened = 1 ∧
    (getEmailMetrics "c1" 3 (fireOpens "c1" "a@x.com" [(7, none, none)]) []).uniqueOpens.length = 1 :=
  openPixel_repeat_total_and_unique_one "c1" "a@x.com" 3 [] [(7, none, none)] (by decide)

/-! ### C2 — suppression filtering at send time -/

/-- Claim C2 (counterexample): the send-time filter compares raw email strings
with `includes`, not normalized ones.  A contact whose email differs from a
suppressed address only by case is dispatched even though its normalized
(trimmed, lowercased) email is in the suppression list. -/
theorem suppressed_normalized_counterexample :
    ((⟨"c1", "A@x.com", "Ann", "A", "t0"⟩ : Contact) ∈
      activeRecipientsOf [⟨"1", "L", "", [⟨"c1", "A@x.com", "Ann", "A", "t0"⟩]⟩] ["1"] ["a@x.com"]) ∧
    ["a@x.com"].contains (jsTrimLower "A@x.com") = true := by
  constructor <;> decide

/-- Claim C2 (amended): no contact whose exact email string (no trimming, no
case folding) is in the tenant's suppression list at the moment of sending
appears in the dispatched recipient set. -/
theorem dispatched_excludes_exact_suppressed
    (effectiveLists : List DistributionList) (selectedLists unsubscribedEmails : List String)
    (c : Contact)
    (hc : c ∈ activeRecipientsOf effectiveLists selectedLists unsubscribedEmails) :
    unsubscribedEmails.contains c.email = false := by
  have h := List.of_mem_filter hc
  simpa using h

/-- Witness for `dispatched_excludes_exact_suppressed`. -/
theorem dispatched_excludes_exact_suppressed_witness :
    ["b@x.com"].contains
      ((⟨"c1", "a@x.com", "Ann", "A", "t0"⟩ : Contact)).email = false :=
  dispatched_excludes_exact_suppressed
    [⟨"1", "L", "", [⟨"c1", "a@x.com", "Ann", "A", "t0"⟩]⟩] ["1"] ["b@x.com"]
    ⟨"c1", "a@x.com", "Ann", "A", "t0"⟩ (by decide)

/-! ### C3 — idempotence of the unsubscribe upsert -/

/-- Claim C3 (counterexample): unsubscribing `a@x.com` and then `A@X.com`
creates two suppression entries whose normalized email is `a@x.com` — the
duplicate check is exact string equality, not an upsert keyed by the
normalized email. -/
theorem unsubscribe_casing_duplicate_counterexample :
    ((recordUnsubscribe "c" "A@X.com" 2 (recordUnsubscribe "c" "a@x.com" 1 ⟨[], []⟩)).unsubscribedEmails.countP
        (fun s => jsTrimLower s == "a@x.com") = 2) ∧
    ((recordUnsubscribe "c" "A@X.com" 2 (recordUnsubscribe "c" "a@x.com" 1 ⟨[], []⟩)).unsubscribedEmails.countP
        (fun s => jsTrimLower s == "a@x.com") ≠ 1) := by
  constructor <;> decide

/-- Claim C3 (amended): the unsubscribe upsert is idempotent for the identical
email string: a second call with the same string leaves the suppression list
unchanged, and starting from a list without that string, one call leaves
exactly one entry for it.  (Distinct casings of the same address are distinct
entries, as the counterexample shows.) -/
theorem recordUnsubscribe_exact_idempotent (emailId r : String) (t1 t2 : Nat)
    (st : UnsubscribeState) :
    (recordUnsubscribe emailId r t2 (recordUnsubscribe emailId r t1 st)).unsubscribedEmails
      = (recordUnsubscribe emailId r t1 st).unsubscribedEmails ∧
    (st.unsubscribedEmails.count r = 0 →
      (recordUnsubscribe emailId r t1 st).unsubscribedEmails.count r = 1) := by
  constructor
  · by_cases h : r ∈ st.unsubscribedEmails
    · simp [recordUnsubscribe, h]
    · simp [recordUnsubscribe, h]
  · intro h0
    have hn : r ∉ st.unsubscribedEmails := List.count_eq_zero.mp h0
    simp only [recordUnsubscribe]
    rw [if_neg (by simpa using hn)]
    rw [List.count_append, h0]
    simp

/-- Witness for `recordUnsubscribe_exact_idempotent`. -/
theorem recordUnsubscribe_exact_idempotent_witness :
    ((recordUnsubscribe "c" "a@x.com" 2 (recordUnsubscribe "c" "a@x.com" 1 ⟨["z@y.com"], []⟩)).unsubscribedEmails
      = (recordUnsubscribe "c" "a@x.com" 1 ⟨["z@y.com"], []⟩).unsubscribedEmails) ∧
    (recordUnsubscribe "c" "a@x.com" 1 ⟨["z@y.com"], []⟩).unsubscribedEmails.count "a@x.com" = 1 := by
  have h := recordUnsubscribe_exact_idempotent "c" "a@x.com" 1 2 ⟨["z@y.com"], []⟩
  exact ⟨h.1, h.2 (by decide)⟩

/-! ### C4 — recipient resolution across several lists -/

theorem countP_flatMap {β : Type} (L : List β) (f : β → List Contact) (p : Contact → Bool) :
    (L.flatMap f).countP p = (L.map (fun b => (f b).countP p)).sum := by
  induction L with
  | nil => rfl
  | cons b bs ih => simp [List.flatMap_cons, List.countP_append, ih]

/-- Claim C4 (counterexample): a contact present (with the same email) in two
selected lists is dispatched twice — `sendEmail` concatenates the selected
lists' contacts with `flatMap` and never deduplicates. -/
theorem union_dedup_counterexample :
    ((activeRecipientsOf
        [⟨"1", "L1", "", [⟨"c1", "a@x.com", "A", "A", "t"⟩]⟩,
         ⟨"2", "L2", "", [⟨"c2", "a@x.com", "B", "B", "t"⟩]⟩]
        ["1", "2"] []).countP (fun c => jsTrimLower c.email == "a@x.com") = 2) ∧
    ¬((activeRecipientsOf
        [⟨"1", "L1", "", [⟨"c1", "a@x.com", "A", "A", "t"⟩]⟩,
         ⟨"2", "L2", "", [⟨"c2", "a@x.com", "B", "B", "t"⟩]⟩]
        ["1", "2"] []).countP (fun c => jsTrimLower c.email == "a@x.com") ≤ 1) := by
  constructor <;> decide

/-- Claim C4 (amended): the recipient collection is the concatenation of the
selected lists' contacts with no deduplication: for any predicate (e.g. "has
this normalized email") the number of dispatched occurrences is the sum of the
per-list counts — a contact appearing in `k` selected lists is dispatched `k`
times, not once. -/
theorem recipients_concat_counts (effectiveLists : List DistributionList)
    (selectedLists unsubscribedEmails : List String) (p : Contact → Bool) :
    (allRecipientsOf effectiveLists selectedLists).countP p =
      ((selectedDistributionListsOf effectiveLists selectedLists).map
        (fun l => l.contacts.countP p)).sum ∧
    (activeRecipientsOf effectiveLists selectedLists unsubscribedEmails).countP p =
      ((selectedDistributionListsOf effectiveLists selectedLists).map
        (fun l => l.contacts.countP
          (fun c => p c && !(unsubscribedEmails.contains c.email)))).sum := by
  constructor
  · exact countP_flatMap _ _ p
  · rw [activeRecipientsOf, List.countP_filter, allRecipientsOf]
    exact countP_flatMap _ _ _

/-! ### C5 — empty recipient set after filtering -/

/-- Claim C5 (code bug): with every targeted contact suppressed, `sendEmail`
does not complete the send with a `sent` status and zero counters.  In API
mode the code comments that the send should proceed ("backend will resolve
recipients") but then dereferences `activeRecipients[0].email`, which throws a
`TypeError`; in KV test mode the send is rejected with an error toast.  In
both modes no campaign record is written. -/
theorem sendEmail_empty_recipients_errors :
    (sendEmail false none "Subject" "Body" ["1"] none none "t1" "t0"
        { drafts := [], kvDistributionLists := [],
          apiDistributionLists := [⟨"1", "L", "", [⟨"c1", "b@x.com", "B", "B", "t"⟩]⟩],
          unsubscribedEmails := ["b@x.com"] } =
      (SendOutcome.typeErrorOnEmptySample,
        { drafts := [], kvDistributionLists := [],
          apiDistributionLists := [⟨"1", "L", "", [⟨"c1", "b@x.com", "B", "B", "t"⟩]⟩],
          unsubscribedEmails := ["b@x.com"] })) ∧
    (sendEmail true none "Subject" "Body" ["1"] none none "t1" "t0"
        { drafts := [], kvDistributionLists := [⟨"1", "L", "", [⟨"c1", "b@x.com", "B", "B", "t"⟩]⟩],
          apiDistributionLists := [], unsubscribedEmails := ["b@x.com"] } =
      (SendOutcome.noActiveRecipients,
        { drafts := [], kvDistributionLists := [⟨"1", "L", "", [⟨"c1", "b@x.com", "B", "B", "t"⟩]⟩],
          apiDistributionLists := [], unsubscribedEmails := ["b@x.com"] })) := by
  constructor <;> rfl

/-! ### C9 — sending never mutates stored list membership -/

/-- Claim C9: computing recipients and applying suppression filtering never
mutates stored distribution lists: after any `sendEmail` invocation both the
KV-mode and API-mode list collections are unchanged (only `drafts` is
written), and the active-contacts computation is a pure sublist filter of the
stored contacts. -/
theorem sendEmail_preserves_lists (kvTestMode : Bool) (configuredApiUrl : Option String)
    (subject content : String) (selectedLists : List String)
    (currentDraft : Option String) (user : Option UserProfile)
    (now nowId : String) (st : ComposerState) :
    ((sendEmail kvTestMode configuredApiUrl subject content selectedLists currentDraft
        user now nowId st).2.kvDistributionLists = st.kvDistributionLists ∧
      (sendEmail kvTestMode configuredApiUrl subject content selectedLists currentDraft
        user now nowId st).2.apiDistributionLists = st.apiDistributionLists ∧
      (sendEmail kvTestMode configuredApiUrl subject content selectedLists currentDraft
        user now nowId st).2.unsubscribedEmails = st.unsubscribedEmails) ∧
    (∀ (unsubscribedEmails : List String) (contacts : List Contact),
      (getActiveContacts unsubscribedEmails contacts).Sublist contacts) := by
  constructor
  · unfold sendEmail
    dsimp only
    repeat' (first | split | dsimp only)
    all_goals exact ⟨rfl, rfl, rfl⟩
  · intro unsub contacts
    exact List.filter_sublist contacts

/-! ### C7 — CSV header resolution and field splitting -/

theorem strData_append (a b : String) : (a ++ b).data = a.data ++ b.data := by
  cases a; cases b; rfl

theorem strMk_data (s : String) : (⟨s.data⟩ : String) = s := by
  cases s; rfl

theorem splitOnChar_shape (sep : Char) (s : List Char) :
    ∃ u v, splitOnChar sep s = u :: v := by
  cases s with
  | nil => exact ⟨[], [], rfl⟩
  | cons c cs =>
    unfold splitOnChar
    rcases h : splitOnChar sep cs with _ | ⟨cur, rest⟩
    · exact ⟨[c], [], rfl⟩
    · by_cases hc : c = sep
      · exact ⟨[], cur :: rest, by simp [hc]⟩
      · exact ⟨c :: cur, rest, by simp [hc]⟩

theorem splitOnChar_cons (sep c : Char) (cs : List Char) :
    splitOnChar sep (c :: cs) =
      match splitOnChar sep cs with
      | cur :: rest => if c = sep then [] :: cur :: rest else (c :: cur) :: rest
      | [] => [[c]] := by
  rfl

theorem splitOnChar_no_sep (sep : Char) (a : List Char) (h : ∀ c ∈ a, c ≠ sep) :
    splitOnChar sep a = [a] := by
  induction a with
  | nil => rfl
  | cons c cs ih =>
    have hcs : splitOnChar sep cs = [cs] := ih (fun x hx => h x (List.mem_cons_of_mem c hx))
    rw [splitOnChar_cons, hcs]
    simp [h c (List.mem_cons_self c cs)]

theorem splitOnChar_append_sep_cons (sep : Char) (a b : List Char)
    (h : ∀ c ∈ a, c ≠ sep) :
    splitOnChar sep (a ++ sep :: b) = a :: splitOnChar sep b := by
  induction a with
  | nil =>
    obtain ⟨u, v, huv⟩ := splitOnChar_shape sep b
    simp only [List.nil_append]
    rw [splitOnChar_cons, huv]
    simp [← huv]
  | cons c cs ih =>
    have hcs := ih (fun x hx => h x (List.mem_cons_of_mem c hx))
    simp only [List.cons_append]
    rw [splitOnChar_cons, hcs]
    simp [h c (List.mem_cons_self c cs)]

theorem mem_dropWhile_of_not (p : Char → Bool) (c : Char) :
    ∀ s : List Char, c ∈ s → p c = false → c ∈ s.dropWhile p
  | x :: xs, hc, hp => by
    by_cases hx : p x = true
    · rw [List.dropWhile_cons_of_pos hx]
      have : c ∈ xs := by
        rcases List.mem_cons.mp hc with rfl | h
        · rw [hx] at hp; cases hp
        · exact h
      exact mem_dropWhile_of_not p c xs this hp
    · rw [List.dropWhile_cons_of_neg hx]
      exact hc

theorem trimChars_not_empty (s : List Char) (c : Char) (hc : c ∈ s)
    (hns : isJsSpace c = false) : (trimChars s).isEmpty = false := by
  have h1 : c ∈ s.dropWhile isJsSpace := mem_dropWhile_of_not _ c s hc hns
  have h2 : c ∈ (s.dropWhile isJsSpace).reverse := List.mem_reverse.mpr h1
  have h3 : c ∈ (s.dropWhile isJsSpace).reverse.dropWhile isJsSpace :=
    mem_dropWhile_of_not _ c _ h2 hns
  have h4 : c ∈ trimChars s := List.mem_reverse.mpr h3
  have h5 : trimChars s ≠ [] := List.ne_nil_of_mem h4
  cases h6 : (trimChars s).isEmpty
  · rfl
  · exact absurd (List.isEmpty_iff.mp h6) h5

/-- Claim C7 (counterexample): a quoted field containing a comma is not read
as a single field — `parseCsvContacts` splits rows on every comma, so
`"Doe, Jane",X,a@b.com` under header `firstname,lastname,email` yields the
mangled row (`firstName = '"Doe'`, `email = 'X'`) instead of a row with email
`a@b.com`. -/
theorem parseCsv_quoted_comma_counterexample :
    parseCsvContacts "firstname,lastname,email\n\"Doe, Jane\",X,a@b.com" =
      Except.ok [{ firstName := "\"Doe", lastName := "Jane\"", email := "X" }] ∧
    parseCsvContacts "firstname,lastname,email\n\"Doe, Jane\",X,a@b.com" ≠
      Except.ok [{ firstName := "Doe, Jane", lastName := "X", email := "a@b.com" }] := by
  constructor
  · rfl
  · intro h
    exact absurd (Except.ok.inj h) (by decide)

/-- Claim C7 (amended): the parser resolves columns by header name, not
position — any header line whose comma-split, trimmed, lowercased cells are
`email`, `firstname`, `lastname` (here in reordered form, arbitrary casing and
padding) is accepted, and each data cell is assigned to the field named by its
column.  Data lines, however, are split on every comma with no quoted-field
escaping (see the counterexample), so this holds for comma-free fields. -/
theorem parseCsv_header_by_name (H f l e : String)
    (hH : (splitComma H).map jsTrimLower = ["email", "firstname", "lastname"])
    (hHn : ∀ c ∈ H.data, c ≠ '\n' ∧ c ≠ '\r')
    (hHne : (trimChars H.data).isEmpty = false)
    (hf : ∀ c ∈ f.data, c ≠ ',' ∧ c ≠ '\n' ∧ c ≠ '\r')
    (hl : ∀ c ∈ l.data, c ≠ ',' ∧ c ≠ '\n' ∧ c ≠ '\r')
    (he : ∀ c ∈ e.data, c ≠ ',' ∧ c ≠ '\n' ∧ c ≠ '\r') :
    parseCsvContacts (H ++ "\n" ++ e ++ "," ++ f ++ "," ++ l) =
      Except.ok [{ firstName := (⟨trimChars f.data⟩ : String),
                   lastName := (⟨trimChars l.data⟩ : String),
                   email := (⟨trimChars e.data⟩ : String) }] := by
  set R : List Char := e.data ++ ',' :: (f.data ++ ',' :: l.data) with hR
  have hdata : (H ++ "\n" ++ e ++ "," ++ f ++ "," ++ l).data = H.data ++ '\n' :: R := by
    simp only [strData_append, hR]
    simp
  have hnoNl : ∀ c ∈ H.data, c ≠ '\n' := fun c hc => (hHn c hc).1
  have hRsplit : splitOnChar '\n' R = [R] := by
    refine splitOnChar_no_sep '\n' R (fun c hc => ?_)
    rw [hR] at hc
    rcases List.mem_append.mp hc with h1 | h2
    · exact (he c h1).2.1
    · rcases List.mem_cons.mp h2 with rfl | h3
      · decide
      · rcases List.mem_append.mp h3 with h4 | h5
        · exact (hf c h4).2.1
        · rcases List.mem_cons.mp h5 with rfl | h6
          · decide
          · exact (hl c h6).2.1
  have hsplit : splitOnChar '\n' ((H ++ "\n" ++ e ++ "," ++ f ++ "," ++ l).data) =
      [H.data, R] := by
    rw [hdata, splitOnChar_append_sep_cons '\n' H.data R hnoNl, hRsplit]
  have hstrip : stripCr H.data = H.data := by
    unfold stripCr
    split
    · next hlast =>
      exfalso
      have : '\r' ∈ H.data := List.mem_of_getLast?_eq_some hlast
      exact (hHn '\r' this).2 rfl
    · rfl
  have hlines : splitLinesJs (H ++ "\n" ++ e ++ "," ++ f ++ "," ++ l) =
      [(⟨H.data⟩ : String), (⟨R⟩ : String)] := by
    unfold splitLinesJs
    rw [hsplit]
    simp [mapInit, hstrip]
  have hRne : (trimChars R).isEmpty = false := by
    refine trimChars_not_empty R ',' ?_ (by decide)
    rw [hR]
    exact List.mem_append.mpr (Or.inr (List.mem_cons_self _ _))
  have hcols : splitOnChar ',' R = [e.data, f.data, l.data] := by
    rw [hR]
    rw [splitOnChar_append_sep_cons ',' e.data _ (fun c hc => (he c hc).1)]
    rw [splitOnChar_append_sep_cons ',' f.data _ (fun c hc => (hf c hc).1)]
    rw [splitOnChar_no_sep ',' l.data (fun c hc => (hl c hc).1)]
  unfold parseCsvContacts
  rw [hlines]
  simp only [List.filter_cons, List.filter_nil, strMk_data, hHne, hRne, Bool.not_false,
    if_true, Bool.not_true]
  rw [hH]
  simp only [List.findIdx?]
  norm_num
  simp only [List.filterMap_cons, List.filterMap_nil, hRne, Bool.not_false, if_false]
  unfold splitComma
  rw [hcols]
  have hRnil : trimChars R ≠ [] := by
    intro hh
    rw [trimChars] at hh
    rw [show trimChars R = [] from hh] at hRne
    cases hRne
  simp only [hRnil, if_false]
  rfl

/-- Witness for `parseCsv_header_by_name` on a concrete reordered,
mixed-case header. -/
theorem parseCsv_header_by_name_witness :
    parseCsvContacts ("Email, FIRSTNAME ,lastname" ++ "\n" ++ "a@b.com" ++ "," ++ " John" ++ "," ++ "Doe") =
      Except.ok [{ firstName := (⟨trimChars " John".data⟩ : String),
                   lastName := (⟨trimChars "Doe".data⟩ : String),
                   email := (⟨trimChars "a@b.com".data⟩ : String) }] :=
  parseCsv_header_by_name "Email, FIRSTNAME ,lastname" " John" "Doe" "a@b.com"
    (by decide) (by decide) (by decide) (by decide) (by decide) (by decide)

/-! ### C6 — import-batch classification -/

theorem classify_foldl_spec (ex : List String) :
    ∀ (rs : List CsvRow) (st : ImportClassification) (prefixRows : List CsvRow),
      (∀ n : String, st.seenInImport.contains n =
        (!(ex.contains n) &&
          prefixRows.any (fun q => !rowInvalid q && jsTrimLower q.email == n))) →
      ((rs.foldl (importStep ex) st).skippedInvalid
          = st.skippedInvalid + rs.countP rowInvalid ∧
        (rs.foldl (importStep ex) st).skippedDuplicates
          = st.skippedDuplicates + dupCountAux ex prefixRows rs ∧
        (rs.foldl (importStep ex) st).validEntries.length
            + (rs.foldl (importStep ex) st).skippedDuplicates
            + (rs.foldl (importStep ex) st).skippedInvalid
          = st.validEntries.length + st.skippedDuplicates + st.skippedInvalid + rs.length) := by
  intro rs
  induction rs with
  | nil => intro st prefixRows _; simp [dupCountAux]
  | cons r rs ih =>
    intro st prefixRows hseen
    by_cases hinv : rowInvalid r = true
    · have hstep : importStep ex st r = { st with skippedInvalid := st.skippedInvalid + 1 } := by
        simp [importStep, hinv]
      have hseen' : ∀ n : String,
          ({ st with skippedInvalid := st.skippedInvalid + 1 } :
              ImportClassification).seenInImport.contains n =
            (!(ex.contains n) &&
              (prefixRows ++ [r]).any (fun q => !rowInvalid q && jsTrimLower q.email == n)) := by
        intro n
        rw [List.any_append]
        simp only [List.any_cons, List.any_nil, hinv, Bool.not_true, Bool.false_and,
          Bool.or_false]
        exact hseen n
      obtain ⟨h1, h2, h3⟩ := ih ({ st with skippedInvalid := st.skippedInvalid + 1 })
        (prefixRows ++ [r]) hseen'
      rw [List.foldl_cons, hstep]
      refine ⟨?_, ?_, ?_⟩
      · rw [h1]; simp [List.countP_cons, hinv]; omega
      · rw [h2]; simp [dupCountAux, hinv]
      · rw [h3]; simp; omega
    · rw [Bool.not_eq_true] at hinv
      by_cases hdup : (ex.contains (jsTrimLower r.email)
          || st.seenInImport.contains (jsTrimLower r.email)) = true
      · have hstep : importStep ex st r =
            { st with skippedDuplicates := st.skippedDuplicates + 1 } := by
          simp only [importStep]
          rw [if_neg (by simp [hinv]), if_pos hdup]
        have hspec : (ex.contains (jsTrimLower r.email) ||
            prefixRows.any (fun q => !rowInvalid q && jsTrimLower q.email == jsTrimLower r.email)) = true := by
          rcases Bool.or_eq_true_iff.mp hdup with h | h
          · rw [h]; rfl
          · have hx : (!(ex.contains (jsTrimLower r.email)) &&
                prefixRows.any (fun q => !rowInvalid q && jsTrimLower q.email == jsTrimLower r.email)) = true := by
              rw [← hseen (jsTrimLower r.email)]; exact h
            rw [Bool.and_eq_true] at hx
            rw [hx.2]
            simp
        have hseen' : ∀ n : String,
            ({ st with skippedDuplicates := st.skippedDuplicates + 1 } :
                ImportClassification).seenInImport.contains n =
              (!(ex.contains n) &&
                (prefixRows ++ [r]).any (fun q => !rowInvalid q && jsTrimLower q.email == n)) := by
          intro n
          rw [List.any_append]
          simp only [List.any_cons, List.any_nil, hinv, Bool.not_false, Bool.true_and,
            Bool.or_false]
          by_cases hn : jsTrimLower r.email == n
          · have hn' : jsTrimLower r.email = n := by simpa using hn
            rw [hn']
            simp only [beq_self_eq_true, Bool.or_true]
            rw [← hn']
            have hx := hseen (jsTrimLower r.email)
            rcases Bool.or_eq_true_iff.mp hdup with h | h
            · rw [h]
              simp only [Bool.not_true, Bool.false_and]
              rw [hx, h]
              simp
            · rw [h] at hx ⊢
              have h2 := hx.symm
              rw [Bool.and_eq_true] at h2
              simp [h2.1]
              simpa using h2.1
          · have hn' : (jsTrimLower r.email == n) = false := by
              simpa using hn
            rw [hn']
            simp only [Bool.or_false]
            exact hseen n
        obtain ⟨h1, h2, h3⟩ := ih ({ st with skippedDuplicates := st.skippedDuplicates + 1 })
          (prefixRows ++ [r]) hseen'
        rw [List.foldl_cons, hstep]
        refine ⟨?_, ?_, ?_⟩
        · rw [h1]; simp [List.countP_cons, hinv]
        · rw [h2]
          simp only [dupCountAux, hinv, hspec, Bool.not_false, Bool.true_and, if_true]
          omega
        · rw [h3]; simp; omega
      · rw [Bool.or_eq_true_iff] at hdup
        push_neg at hdup
        have hex : ex.contains (jsTrimLower r.email) = false := by
          rcases h : ex.contains (jsTrimLower r.email) with _ | _
          · rfl
          · exact absurd h hdup.1
        have hsn : st.seenInImport.contains (jsTrimLower r.email) = false := by
          rcases h : st.seenInImport.contains (jsTrimLower r.email) with _ | _
          · rfl
          · exact absurd h hdup.2
        have hstep : importStep ex st r =
            { st with
              seenInImport := st.seenInImport ++ [jsTrimLower r.email],
              validEntries := st.validEntries ++
                [{ firstName := (⟨trimChars r.firstName.data⟩ : String),
                   lastName := (⟨trimChars r.lastName.data⟩ : String),
                   email := (⟨trimChars r.email.data⟩ : String) }] } := by
          simp only [importStep]
          rw [if_neg (by simp [hinv]), if_neg (by rw [hex, hsn]; decide)]
        have hspec : (ex.contains (jsTrimLower r.email) ||
            prefixRows.any (fun q => !rowInvalid q && jsTrimLower q.email == jsTrimLower r.email)) = false := by
          rw [hex]
          simp only [Bool.false_or]
          have hx := hseen (jsTrimLower r.email)
          rw [hsn, hex] at hx
          simpa using hx.symm
        have hseen' : ∀ n : String,
            (st.seenInImport ++ [jsTrimLower r.email]).contains n =
              (!(ex.contains n) &&
                (prefixRows ++ [r]).any (fun q => !rowInvalid q && jsTrimLower q.email == n)) := by
          intro n
          rw [List.any_append]
          simp only [List.any_cons, List.any_nil, hinv, Bool.not_false, Bool.true_and,
            Bool.or_false]
          have hcontapp : (st.seenInImport ++ [jsTrimLower r.email]).contains n =
              (st.seenInImport.contains n || (n == jsTrimLower r.email)) := by
            rw [List.contains_eq_any_beq, List.any_append, ← List.contains_eq_any_beq]
            simp
          rw [hcontapp, hseen n]
          by_cases hn : n = jsTrimLower r.email
          · subst hn
            rw [hex]
            simp
          · have h1 : (n == jsTrimLower r.email) = false := by simpa using hn
            have h2 : (jsTrimLower r.email == n) = false := by
              simp only [beq_eq_false_iff_ne, ne_eq]
              exact fun hh => hn hh.symm
            rw [h1, h2]
            simp
        obtain ⟨h1, h2, h3⟩ := ih ({ st with
            seenInImport := st.seenInImport ++ [jsTrimLower r.email],
            validEntries := st.validEntries ++
              [{ firstName := (⟨trimChars r.firstName.data⟩ : String),
                 lastName := (⟨trimChars r.lastName.data⟩ : String),
                 email := (⟨trimChars r.email.data⟩ : String) }] })
          (prefixRows ++ [r]) hseen'
        rw [List.foldl_cons, hstep]
        refine ⟨?_, ?_, ?_⟩
        · rw [h1]; simp [List.countP_cons, hinv]
        · rw [h2]
          show st.skippedDuplicates + dupCountAux ex (prefixRows ++ [r]) rs
              = st.skippedDuplicates + dupCountAux ex prefixRows (r :: rs)
          simp only [dupCountAux, hinv, hspec, Bool.not_false, Bool.true_and, if_false]
          simp
        · rw [h3]; simp; omega

/-- Claim C6: per-row classification of an import batch.  `skippedInvalid`
counts exactly the rows with invalid shape (blank first/last name or email
failing the `local@domain.tld` regex); `skippedDuplicates` counts exactly the
valid rows whose normalized email is among the existing list contacts or
equals that of an earlier valid row of the batch; every row lands in exactly
one bucket; and in particular a batch of two valid rows sharing a
case-insensitive email (not already in the list) imports exactly one contact
and increments `skippedDuplicates` by 1.  In KV mode the imported contacts are
appended to the target list. -/
theorem classifyImportRows_counts (existing : List String) (rows : List CsvRow) :
    ((classifyImportRows existing rows).skippedInvalid = rows.countP rowInvalid ∧
      (classifyImportRows existing rows).skippedDuplicates = dupCountSpec existing rows ∧
      (classifyImportRows existing rows).validEntries.length
          + (classifyImportRows existing rows).skippedDuplicates
          + (classifyImportRows existing rows).skippedInvalid = rows.length) ∧
    (∀ r1 r2 : CsvRow, rowInvalid r1 = false → rowInvalid r2 = false →
      jsTrimLower r1.email = jsTrimLower r2.email →
      existing.contains (jsTrimLower r1.email) = false →
      (classifyImportRows existing [r1, r2]).validEntries.length = 1 ∧
      (classifyImportRows existing [r1, r2]).skippedDuplicates = 1 ∧
      (classifyImportRows existing [r1, r2]).skippedInvalid = 0) ∧
    (∀ (contacts : List Contact) (mkId mkAddedAt : Nat → String),
      (handleFileChangeKv contacts rows mkId mkAddedAt).1.length =
        contacts.length +
          (classifyImportRows (existingEmailsOf contacts) rows).validEntries.length) := by
  have hbase : ∀ (ex : List String) (rws : List CsvRow),
      (classifyImportRows ex rws).skippedInvalid = rws.countP rowInvalid ∧
      (classifyImportRows ex rws).skippedDuplicates = dupCountSpec ex rws ∧
      (classifyImportRows ex rws).validEntries.length
          + (classifyImportRows ex rws).skippedDuplicates
          + (classifyImportRows ex rws).skippedInvalid = rws.length := by
    intro ex rws
    have h := classify_foldl_spec ex rws ⟨[], [], 0, 0⟩ [] (by intro n; simp)
    obtain ⟨h1, h2, h3⟩ := h
    refine ⟨?_, ?_, ?_⟩
    · rw [classifyImportRows, h1]; simp
    · rw [classifyImportRows, h2, dupCountSpec]; simp
    · rw [classifyImportRows]
      simp only [List.length_nil] at h3
      omega
  refine ⟨hbase existing rows, ?_, ?_⟩
  · intro r1 r2 h1 h2 heq hex
    have hs1 : importStep existing ⟨[], [], 0, 0⟩ r1 =
        ⟨[{ firstName := (⟨trimChars r1.firstName.data⟩ : String),
            lastName := (⟨trimChars r1.lastName.data⟩ : String),
            email := (⟨trimChars r1.email.data⟩ : String) }],
          [jsTrimLower r1.email], 0, 0⟩ := by
      simp only [importStep]
      rw [if_neg (by simp [h1]), if_neg (by rw [hex]; simp)]
      rfl
    have hs2 : importStep existing
        (⟨[{ firstName := (⟨trimChars r1.firstName.data⟩ : String),
             lastName := (⟨trimChars r1.lastName.data⟩ : String),
             email := (⟨trimChars r1.email.data⟩ : String) }],
           [jsTrimLower r1.email], 0, 0⟩ : ImportClassification) r2 =
        ⟨[{ firstName := (⟨trimChars r1.firstName.data⟩ : String),
            lastName := (⟨trimChars r1.lastName.data⟩ : String),
            email := (⟨trimChars r1.email.data⟩ : String) }],
          [jsTrimLower r1.email], 1, 0⟩ := by
      simp only [importStep]
      rw [if_neg (by simp [h2]), if_pos (by rw [← heq]; simp [hex])]
    have hfin : classifyImportRows existing [r1, r2] =
        ⟨[{ firstName := (⟨trimChars r1.firstName.data⟩ : String),
            lastName := (⟨trimChars r1.lastName.data⟩ : String),
            email := (⟨trimChars r1.email.data⟩ : String) }],
          [jsTrimLower r1.email], 1, 0⟩ := by
      show importStep existing (importStep existing ⟨[], [], 0, 0⟩ r1) r2 = _
      rw [hs1, hs2]
    refine ⟨?_, ?_, ?_⟩ <;> simp [hfin]
  · intro contacts mkId mkAddedAt
    simp [handleFileChangeKv, List.length_append]

/-- Witness for `classifyImportRows_counts` (the two-row scenario) at a
concrete batch. -/
theorem classifyImportRows_counts_witness :
    (classifyImportRows [] [⟨"John", "Doe", "a@b.com"⟩, ⟨"Jane", "Doe", "A@B.COM"⟩]).validEntries.length = 1 ∧
    (classifyImportRows [] [⟨"John", "Doe", "a@b.com"⟩, ⟨"Jane", "Doe", "A@B.COM"⟩]).skippedDuplicates = 1 ∧
    (classifyImportRows [] [⟨"John", "Doe", "a@b.com"⟩, ⟨"Jane", "Doe", "A@B.COM"⟩]).skippedInvalid = 0 :=
  (classifyImportRows_counts [] [⟨"John", "Doe", "a@b.com"⟩, ⟨"Jane", "Doe", "A@B.COM"⟩]).2.1
    ⟨"John", "Doe", "a@b.com"⟩ ⟨"Jane", "Doe", "A@B.COM"⟩
    (by decide) (by decide) (by decide) (by decide)

/-! ### C8 — earliest open wins in `uniqueOpens` -/

theorem mapGet_none_iff (m : List (String × EmailTrackingData)) (k : String) :
    mapGet m k = none ↔ ∀ p ∈ m, p.1 ≠ k := by
  induction m with
  | nil => simp [mapGet]
  | cons p rest ih =>
    obtain ⟨k', v'⟩ := p
    by_cases h : k' = k
    · subst h
      simp [mapGet]
    · simp only [mapGet, h, if_false, List.mem_cons]
      rw [ih]
      constructor
      · rintro hrest q (rfl | hq)
        · exact h
        · exact hrest q hq
      · intro hall q hq
        exact hall q (Or.inr hq)

theorem mapGet_some_mem {m : List (String × EmailTrackingData)} {k : String}
    {v : EmailTrackingData} (h : mapGet m k = some v) : (k, v) ∈ m := by
  induction m with
  | nil => cases h
  | cons p rest ih =>
    obtain ⟨k', v'⟩ := p
    by_cases hk : k' = k
    · subst hk
      simp only [mapGet, if_pos rfl] at h
      obtain rfl := Option.some.inj h
      exact List.mem_cons_self _ _
    · simp only [mapGet, hk, if_false] at h
      exact List.mem_cons_of_mem _ (ih h)

theorem mapSet_keys (m : List (String × EmailTrackingData)) (k : String)
    (v : EmailTrackingData) :
    (mapSet m k v).map Prod.fst =
      if (m.map Prod.fst).contains k then m.map Prod.fst else m.map Prod.fst ++ [k] := by
  induction m with
  | nil => simp [mapSet]
  | cons p rest ih =>
    obtain ⟨k', v'⟩ := p
    by_cases h : k' = k
    · subst h
      simp [mapSet]
    · have hne : (k == k') = false := by
        simp only [beq_eq_false_iff_ne, ne_eq]
        exact fun hh => h hh.symm
      simp only [mapSet, h, if_false, List.map_cons, ih]
      rw [List.contains_cons, hne, Bool.false_or]
      by_cases hc : (rest.map Prod.fst).contains k
      · rw [if_pos hc, if_pos hc]
      · simp only [Bool.not_eq_true] at hc
        rw [hc]
        simp

theorem mem_mapSet {m : List (String × EmailTrackingData)} {k : String}
    {v : EmailTrackingData} {p : String × EmailTrackingData}
    (hnd : (m.map Prod.fst).Nodup) :
    p ∈ mapSet m k v ↔ p = (k, v) ∨ (p ∈ m ∧ p.1 ≠ k) := by
  induction m with
  | nil => simp [mapSet]
  | cons q rest ih =>
    obtain ⟨k', v'⟩ := q
    simp only [List.map_cons, List.nodup_cons] at hnd
    by_cases h : k' = k
    · subst h
      rw [show mapSet ((k', v') :: rest) k' v = (k', v) :: rest from by simp [mapSet]]
      constructor
      · intro hmem
        rcases List.mem_cons.mp hmem with rfl | hp
        · exact Or.inl rfl
        · refine Or.inr ⟨List.mem_cons_of_mem _ hp, ?_⟩
          intro hk
          exact hnd.1 (hk ▸ List.mem_map_of_mem Prod.fst hp)
      · rintro (rfl | ⟨hp, hne⟩)
        · exact List.mem_cons_self _ _
        · rcases List.mem_cons.mp hp with rfl | hp'
          · exact absurd rfl hne
          · exact List.mem_cons_of_mem _ hp'
    · rw [show mapSet ((k', v') :: rest) k v = (k', v') :: mapSet rest k v from by
        simp [mapSet, h]]
      constructor
      · intro hmem
        rcases List.mem_cons.mp hmem with rfl | hp
        · exact Or.inr ⟨List.mem_cons_self _ _, fun hh => h hh⟩
        · rcases (ih hnd.2).mp hp with rfl | ⟨hp', hne⟩
          · exact Or.inl rfl
          · exact Or.inr ⟨List.mem_cons_of_mem _ hp', hne⟩
      · rintro (rfl | ⟨hp, hne⟩)
        · exact List.mem_cons_of_mem _ ((ih hnd.2).mpr (Or.inl rfl))
        · rcases List.mem_cons.mp hp with rfl | hp'
          · exact List.mem_cons_self _ _
          · exact List.mem_cons_of_mem _ ((ih hnd.2).mpr (Or.inr ⟨hp', hne⟩))

theorem nodup_keys_unique {m : List (String × EmailTrackingData)} {k : String}
    {v1 v2 : EmailTrackingData} (hnd : (m.map Prod.fst).Nodup)
    (h1 : (k, v1) ∈ m) (h2 : (k, v2) ∈ m) : v1 = v2 := by
  induction m with
  | nil => cases h1
  | cons q rest ih =>
    simp only [List.map_cons, List.nodup_cons] at hnd
    rcases List.mem_cons.mp h1 with h1a | h1'
    · rcases List.mem_cons.mp h2 with h2a | h2'
      · exact congrArg Prod.snd (h1a.trans h2a.symm)
      · exfalso
        have hk : k ∈ List.map Prod.fst rest := List.mem_map_of_mem Prod.fst h2'
        rw [← h1a] at hnd
        exact hnd.1 hk
    · rcases List.mem_cons.mp h2 with h2a | h2'
      · exfalso
        have hk : k ∈ List.map Prod.fst rest := List.mem_map_of_mem Prod.fst h1'
        rw [← h2a] at hnd
        exact hnd.1 hk
      · exact ih hnd.2 h1' h2'

/-- Invariant of the `uniqueOpensMap` fold: keys are distinct; every entry is
keyed by its value's recipient, holds a processed event, and is
minimal-timestamped among the processed events of that recipient; and every
processed event has an entry for its recipient. -/
def UOInv (processed : List EmailTrackingData)
    (m : List (String × EmailTrackingData)) : Prop :=
  (m.map Prod.fst).Nodup ∧
  (∀ p ∈ m, p.2.recipientEmail = p.1 ∧ p.2 ∈ processed ∧
    ∀ o ∈ processed, o.recipientEmail = p.1 → tsOf p.2 ≤ tsOf o) ∧
  (∀ o ∈ processed, ∃ p ∈ m, p.1 = o.recipientEmail)

theorem keys_contains_iff (m : List (String × EmailTrackingData)) (k : String) :
    (m.map Prod.fst).contains k = true ↔ ∃ p ∈ m, p.1 = k := by
  rw [List.contains_iff_exists_mem_beq]
  constructor
  · rintro ⟨a, ha, hbeq⟩
    obtain ⟨p, hp, rfl⟩ := List.mem_map.mp ha
    exact ⟨p, hp, (beq_iff_eq.mp hbeq).symm⟩
  · rintro ⟨p, hp, rfl⟩
    exact ⟨p.1, List.mem_map_of_mem Prod.fst hp, beq_iff_eq.mpr rfl⟩

theorem dateLt_some {a b : Option Nat} (ha : a.isSome = true) (hb : b.isSome = true) :
    dateLt a b = decide (a.getD 0 < b.getD 0) := by
  cases a with
  | none => cases ha
  | some x =>
    cases b with
    | none => cases hb
    | some y => rfl

theorem uo_step_inv (processed : List EmailTrackingData)
    (m : List (String × EmailTrackingData)) (o : EmailTrackingData)
    (hinv : UOInv processed m) (ho : o.openedAt.isSome = true)
    (hall : ∀ x ∈ processed, x.openedAt.isSome = true) :
    UOInv (processed ++ [o]) (uniqueOpensStep m o) := by
  obtain ⟨hnd, hent, hcov⟩ := hinv
  rcases hg : mapGet m o.recipientEmail with _ | cur
  · have hrw : uniqueOpensStep m o = mapSet m o.recipientEmail o := by
      unfold uniqueOpensStep
      rw [hg]
    rw [hrw]
    have hfresh : ∀ p ∈ m, p.1 ≠ o.recipientEmail := (mapGet_none_iff m _).mp hg
    have hcont : (m.map Prod.fst).contains o.recipientEmail = false := by
      rw [← Bool.not_eq_true]
      intro hc
      obtain ⟨p, hp, hpk⟩ := (keys_contains_iff m _).mp hc
      exact hfresh p hp hpk
    refine ⟨?_, ?_, ?_⟩
    · rw [mapSet_keys, hcont]
      simp only [Bool.false_eq_true, if_false]
      rw [List.nodup_append]
      refine ⟨hnd, List.nodup_singleton _, ?_⟩
      intro a ha hb
      obtain ⟨p, hp, rfl⟩ := List.mem_map.mp ha
      exact hfresh p hp (List.mem_singleton.mp hb)
    · intro p hp
      rcases (mem_mapSet hnd).mp hp with rfl | ⟨hpm, hpk⟩
      · refine ⟨rfl, List.mem_append.mpr (Or.inr (List.mem_singleton.mpr rfl)), ?_⟩
        intro x hx hxr
        rcases List.mem_append.mp hx with hx' | hx'
        · exfalso
          obtain ⟨q, hq, hqk⟩ := hcov x hx'
          exact hfresh q hq (hqk.trans hxr)
        · rw [List.mem_singleton.mp hx']
      · obtain ⟨h1, h2, h3⟩ := hent p hpm
        refine ⟨h1, List.mem_append.mpr (Or.inl h2), ?_⟩
        intro x hx hxr
        rcases List.mem_append.mp hx with hx' | hx'
        · exact h3 x hx' hxr
        · exfalso
          rw [List.mem_singleton.mp hx'] at hxr
          exact hpk hxr.symm
    · intro x hx
      rcases List.mem_append.mp hx with hx' | hx'
      · obtain ⟨p, hp, hpk⟩ := hcov x hx'
        refine ⟨p, ?_, hpk⟩
        rw [mem_mapSet hnd]
        exact Or.inr ⟨hp, fun hh => hfresh p hp hh⟩
      · refine ⟨(o.recipientEmail, o), ?_, by rw [List.mem_singleton.mp hx']⟩
        rw [mem_mapSet hnd]
        exact Or.inl rfl
  · have hcurm : (o.recipientEmail, cur) ∈ m := mapGet_some_mem hg
    have hcure := hent _ hcurm
    by_cases hlt : dateLt o.openedAt cur.openedAt = true
    · have hrw : uniqueOpensStep m o = mapSet m o.recipientEmail o := by
        unfold uniqueOpensStep
        rw [hg]
        dsimp only
        rw [if_pos hlt]
      rw [hrw]
      have hto : tsOf o < tsOf cur := by
        rw [dateLt_some ho (hall cur hcure.2.1)] at hlt
        simp only [decide_eq_true_eq] at hlt
        simpa [tsOf] using hlt
      refine ⟨?_, ?_, ?_⟩
      · rw [mapSet_keys]
        have hc : (m.map Prod.fst).contains o.recipientEmail = true :=
          (keys_contains_iff m _).mpr ⟨_, hcurm, rfl⟩
        rw [hc]
        simpa using hnd
      · intro p hp
        rcases (mem_mapSet hnd).mp hp with rfl | ⟨hpm, hpk⟩
        · refine ⟨rfl, List.mem_append.mpr (Or.inr (List.mem_singleton.mpr rfl)), ?_⟩
          intro x hx hxr
          rcases List.mem_append.mp hx with hx' | hx'
          · have hmin := hcure.2.2 x hx' hxr
            dsimp only at hmin
            show tsOf o ≤ tsOf x
            omega
          · rw [List.mem_singleton.mp hx']
        · obtain ⟨h1, h2, h3⟩ := hent p hpm
          refine ⟨h1, List.mem_append.mpr (Or.inl h2), ?_⟩
          intro x hx hxr
          rcases List.mem_append.mp hx with hx' | hx'
          · exact h3 x hx' hxr
          · exfalso
            rw [List.mem_singleton.mp hx'] at hxr
            exact hpk hxr.symm
      · intro x hx
        rcases List.mem_append.mp hx with hx' | hx'
        · obtain ⟨p, hp, hpk⟩ := hcov x hx'
          by_cases hpo : p.1 = o.recipientEmail
          · refine ⟨(o.recipientEmail, o), ?_, hpo ▸ hpk⟩
            rw [mem_mapSet hnd]
            exact Or.inl rfl
          · refine ⟨p, ?_, hpk⟩
            rw [mem_mapSet hnd]
            exact Or.inr ⟨hp, hpo⟩
        · refine ⟨(o.recipientEmail, o), ?_, by rw [List.mem_singleton.mp hx']⟩
          rw [mem_mapSet hnd]
          exact Or.inl rfl
    · have hrw : uniqueOpensStep m o = m := by
        unfold uniqueOpensStep
        rw [hg]
        dsimp only
        rw [if_neg hlt]
      rw [hrw]
      have hto : tsOf cur ≤ tsOf o := by
        rw [dateLt_some ho (hall cur hcure.2.1)] at hlt
        simp only [decide_eq_true_eq] at hlt
        simp only [tsOf]
        omega
      refine ⟨hnd, ?_, ?_⟩
      · intro p hp
        obtain ⟨pk, pv⟩ := p
        obtain ⟨h1, h2, h3⟩ := hent _ hp
        dsimp only at h1 h3
        refine ⟨h1, List.mem_append.mpr (Or.inl h2), ?_⟩
        intro x hx hxr
        rcases List.mem_append.mp hx with hx' | hx'
        · exact h3 x hx' hxr
        · have hx0 := List.mem_singleton.mp hx'
          subst hx0
          rw [hxr] at hcurm
          have hpc : pv = cur := nodup_keys_unique hnd hp hcurm
          rw [hpc]
          exact hto
      · intro x hx
        rcases List.mem_append.mp hx with hx' | hx'
        · exact hcov x hx'
        · have hx0 := List.mem_singleton.mp hx'
          subst hx0
          exact ⟨(x.recipientEmail, cur), hcurm, rfl⟩

theorem uo_fold_inv :
    ∀ (rest processed : List EmailTrackingData) (m : List (String × EmailTrackingData)),
      (∀ x ∈ processed ++ rest, x.openedAt.isSome = true) → UOInv processed m →
      UOInv (processed ++ rest) (rest.foldl uniqueOpensStep m)
  | [], processed, m, _, hinv => by simpa using hinv
  | o :: rest', processed, m, hall, hinv => by
    have ho : o.openedAt.isSome = true :=
      hall o (List.mem_append.mpr (Or.inr (List.mem_cons_self _ _)))
    have hallp : ∀ x ∈ processed, x.openedAt.isSome = true := fun x hx =>
      hall x (List.mem_append.mpr (Or.inl hx))
    have hstep := uo_step_inv processed m o hinv ho hallp
    have hall' : ∀ x ∈ (processed ++ [o]) ++ rest', x.openedAt.isSome = true := by
      intro x hx
      apply hall
      rw [List.append_assoc] at hx
      simpa using hx
    have h := uo_fold_inv rest' (processed ++ [o]) (uniqueOpensStep m o) hall' hstep
    rw [List.append_assoc] at h
    simpa using h

/-- Claim C8: in the metrics computation, the representative unique-open
record per recipient is an earliest-timestamped open event: for every
recipient with at least one open event, `uniqueOpens` contains exactly one
record for that recipient, and that record is one of the recipient's stored
open events with a timestamp less than or equal to every open of that
recipient.  (Stored opens always carry a timestamp, which the hypothesis
reflects.) -/
theorem uniqueOpens_earliest_per_recipient (emailId : String) (totalSent : Nat)
    (opens unsubs : List EmailTrackingData)
    (hall : ∀ o ∈ opens, o.openedAt.isSome = true) (r : String)
    (hr : ∃ o ∈ opens, o.recipientEmail = r) :
    ((getEmailMetrics emailId totalSent opens unsubs).uniqueOpens.countP
        (fun v => v.recipientEmail == r)) = 1 ∧
    ∃ v ∈ (getEmailMetrics emailId totalSent opens unsubs).uniqueOpens,
      v.recipientEmail = r ∧ v ∈ opens ∧
      ∀ o ∈ opens, o.recipientEmail = r → tsOf v ≤ tsOf o := by
  have hinv : UOInv opens (uniqueOpensMap opens) := by
    have h0 : UOInv [] [] := by
      refine ⟨List.nodup_nil, ?_, ?_⟩ <;> intro p hp <;> cases hp
    have h := uo_fold_inv opens [] [] (by simpa using hall) h0
    simpa [uniqueOpensMap] using h
  have hU : (getEmailMetrics emailId totalSent opens unsubs).uniqueOpens =
      (uniqueOpensMap opens).map Prod.snd := rfl
  obtain ⟨hnd, hent, hcov⟩ := hinv
  obtain ⟨x, hx, hxr⟩ := hr
  obtain ⟨p, hp, hpk⟩ := hcov x hx
  constructor
  · rw [hU, List.countP_map]
    have hcong : List.countP ((fun v : EmailTrackingData => v.recipientEmail == r) ∘ Prod.snd)
        (uniqueOpensMap opens) =
        List.countP ((fun k : String => k == r) ∘ Prod.fst) (uniqueOpensMap opens) := by
      apply List.countP_congr
      intro q hq
      simp only [Function.comp_apply, beq_iff_eq, (hent q hq).1]
    rw [hcong, ← List.countP_map, ← List.count_eq_countP]
    have hkmem : r ∈ (uniqueOpensMap opens).map Prod.fst := by
      rw [← hxr, ← hpk]
      exact List.mem_map_of_mem Prod.fst hp
    exact List.count_eq_one_of_mem hnd hkmem
  · obtain ⟨h1, h2, h3⟩ := hent p hp
    refine ⟨p.2, ?_, ?_, h2, ?_⟩
    · rw [hU]
      exact List.mem_map_of_mem Prod.snd hp
    · rw [h1, hpk, hxr]
    · intro o ho hor
      exact h3 o ho (by rw [hor, ← hxr, ← hpk])

theorem uniqueOpens_earliest_per_recipient_witness :
    ((getEmailMetrics "c" 2 uoWitnessOpens []).uniqueOpens.countP
        (fun v => v.recipientEmail == "r1")) = 1 ∧
    ∃ v ∈ (getEmailMetrics "c" 2 uoWitnessOpens []).uniqueOpens,
      v.recipientEmail = "r1" ∧ v ∈ uoWitnessOpens ∧
      ∀ o ∈ uoWitnessOpens, o.recipientEmail = "r1" → tsOf v ≤ tsOf o :=
  uniqueOpens_earliest_per_recipient "c" 2 uoWitnessOpens [] (by decide) "r1"
    ⟨{ emailId := "c", recipientEmail := "r1", openedAt := some 5 },
      List.mem_cons_self _ _, rfl⟩

theorem isPre_length : ∀ {p t : List Char}, isPre p t = true → p.length ≤ t.length
  | [], _, _ => by simp
  | _ :: _, [], h => by simp [isPre] at h
  | a :: as, b :: bs, h => by
    simp only [isPre, Bool.and_eq_true, decide_eq_true_eq] at h
    simpa using isPre_length h.2

theorem isPre_refl : ∀ p : List Char, isPre p p = true
  | [] => rfl
  | a :: as => by simp [isPre, isPre_refl as]

theorem isPre_append_long : ∀ {p t : List Char}, ∀ b : List Char, p.length ≤ t.length →
    isPre p (t ++ b) = isPre p t
  | [], t, b, _ => by simp [isPre]
  | a :: as, [], b, h => by simp at h
  | a :: as, c :: cs, b, h => by
    simp only [List.cons_append, isPre, List.append_eq]
    rw [isPre_append_long b (by simpa using h)]

theorem isPre_append_short : ∀ {p t : List Char}, ∀ b : List Char, t.length ≤ p.length →
    isPre p (t ++ b) = (isPre t p && isPre (p.drop t.length) b)
  | p, [], b, _ => by simp [isPre]
  | [], c :: cs, b, h => by simp at h
  | a :: as, c :: cs, b, h => by
    simp only [List.cons_append, isPre, List.length_cons, List.drop_succ_cons,
      List.append_eq]
    rw [isPre_append_short b (by simpa using h)]
    by_cases hac : a = c
    · subst hac; simp [Bool.and_assoc]
    · simp [hac, Ne.symm hac]

theorem countSubstr_append (pat a b : List Char) :
    countSubstr pat (a ++ b) = countFrom pat b a + countSubstr pat b := by
  induction a with
  | nil => simp [countFrom]
  | cons c cs ih =>
    simp only [List.cons_append, countSubstr, countFrom, ih, List.append_eq]
    omega

theorem noTailPre_iff {pat B : List Char} :
    noTailPre pat B = true ↔ ∀ k, 0 < k → k < pat.length → isPre (pat.drop k) B = false := by
  unfold noTailPre
  rw [List.all_eq_true]
  constructor
  · intro h k hk hkl
    have h2 := h k (List.mem_range.mpr hkl)
    simp only [Bool.or_eq_true, beq_iff_eq, Bool.not_eq_true'] at h2
    rcases h2 with h0 | h1
    · omega
    · exact h1
  · intro h k hk
    rw [List.mem_range] at hk
    by_cases h0 : k = 0
    · simp [h0]
    · simp [h0, h k (Nat.pos_of_ne_zero h0) hk]

theorem countFrom_eq_of_noTail {pat b : List Char} (hp : pat ≠ [])
    (hnt : ∀ k, 0 < k → k < pat.length → isPre (pat.drop k) b = false) :
    ∀ a : List Char, countFrom pat b a = countSubstr pat a
  | [] => by
    cases pat with
    | nil => exact absurd rfl hp
    | cons x xs => simp [countFrom, countSubstr, isPre]
  | c :: cs => by
    have hip : isPre pat ((c :: cs) ++ b) = isPre pat (c :: cs) := by
      by_cases hl : pat.length ≤ (c :: cs).length
      · exact isPre_append_long b hl
      · push_neg at hl
        rw [isPre_append_short b (le_of_lt hl), hnt (c :: cs).length (by simp) hl,
          Bool.and_false]
        cases hq : isPre pat (c :: cs)
        · rfl
        · exact absurd (isPre_length hq) (by omega)
    simp only [countFrom, countSubstr, hip, countFrom_eq_of_noTail hp hnt cs]

theorem countSubstr_append_zero_right {pat a b : List Char} (hp : pat ≠ [])
    (ha : countSubstr pat a = 0) (hb : countSubstr pat b = 0)
    (hnt : noTailPre pat b = true) : countSubstr pat (a ++ b) = 0 := by
  rw [countSubstr_append, countFrom_eq_of_noTail hp (noTailPre_iff.mp hnt) a, ha, hb]

theorem countFrom_zero_of_suffix {pat : List Char} (b : List Char) :
    ∀ a : List Char, countSubstr pat a = 0 →
      (∀ j, j < a.length → a.length - j < pat.length → isPre (a.drop j) pat = false) →
      countFrom pat b a = 0
  | [], _, _ => rfl
  | c :: cs, ha, hsuf => by
    have hsplit : isPre pat (c :: cs) = false ∧ countSubstr pat cs = 0 := by
      simp only [countSubstr] at ha
      cases hq : isPre pat (c :: cs)
      · rw [hq] at ha; simpa using ha
      · rw [hq] at ha; simp at ha
    have hrec := countFrom_zero_of_suffix b cs hsplit.2 (fun j hj hlen => by
      have h2 := hsuf (j + 1) (by simpa using Nat.succ_lt_succ hj)
        (by simp only [List.length_cons]; omega)
      simpa using h2)
    have hhead : isPre pat ((c :: cs) ++ b) = false := by
      by_cases hl : pat.length ≤ (c :: cs).length
      · rw [isPre_append_long b hl]; exact hsplit.1
      · push_neg at hl
        rw [isPre_append_short b (le_of_lt hl)]
        have h0 := hsuf 0 (by simp) (by simpa using hl)
        simp only [List.drop_zero] at h0
        rw [h0, Bool.false_and]
    simp only [countFrom, hhead, hrec]
    rfl

theorem countSubstr_append_zero_left {pat : List Char} (a b : List Char)
    (ha : countSubstr pat a = 0) (hb : countSubstr pat b = 0)
    (hsuf : noSufPre a pat = true) : countSubstr pat (a ++ b) = 0 := by
  rw [countSubstr_append]
  have hs : ∀ j, j < a.length → a.length - j < pat.length → isPre (a.drop j) pat = false := by
    intro j hj hlen
    have hall := List.all_eq_true.mp hsuf
    have hjm : a.length - (pat.length - 1) ≤ j := by omega
    have hlen2 : (sufTail a pat).length = a.length - (a.length - (pat.length - 1)) := by
      simp [sufTail]
    have hj2 : j - (a.length - (pat.length - 1)) < (sufTail a pat).length := by
      rw [hlen2]; omega
    have h2 := hall (j - (a.length - (pat.length - 1))) (List.mem_range.mpr hj2)
    simp only [Bool.not_eq_true'] at h2
    rw [sufTail, List.drop_drop] at h2
    rwa [show a.length - (pat.length - 1) + (j - (a.length - (pat.length - 1))) = j from by
      omega] at h2
  rw [countFrom_zero_of_suffix b a ha hs, hb]

theorem countFrom_drop_zero {pat : List Char} (y : List Char)
    (hnt : ∀ k, 0 < k → k < pat.length → isPre (pat.drop k) pat = false) :
    ∀ n k, pat.length - k = n → 0 < k → countFrom pat y (pat.drop k) = 0 := by
  intro n
  induction n with
  | zero =>
    intro k hk _
    rw [List.drop_eq_nil_of_le (by omega)]
    rfl
  | succ i ih =>
    intro k hk hkpos
    have hklt : k < pat.length := by omega
    have hdropk : pat.drop k = pat[k] :: pat.drop (k + 1) := List.drop_eq_getElem_cons hklt
    have hstep : countFrom pat y (pat.drop k) =
        (if isPre pat (pat.drop k ++ y) then 1 else 0) + countFrom pat y (pat.drop (k + 1)) := by
      conv_lhs => rw [hdropk]
      simp only [countFrom]
      rw [← hdropk]
    rw [hstep]
    have hhead : isPre pat (pat.drop k ++ y) = false := by
      rw [isPre_append_short y (by simp), hnt k hkpos hklt, Bool.false_and]
    rw [hhead]
    simpa using ih (k + 1) (by omega) (by omega)

theorem countFrom_self {pat y : List Char} (hp : pat ≠ [])
    (hself : noTailPre pat pat = true) : countFrom pat y pat = 1 := by
  have hnt := noTailPre_iff.mp hself
  have hzero := countFrom_drop_zero y hnt (pat.length - 1) 1 (by omega) Nat.one_pos
  cases hpc : pat with
  | nil => exact absurd hpc hp
  | cons c cs =>
    rw [hpc] at hzero
    simp only [List.drop_succ_cons, List.drop_zero] at hzero
    have h1 : isPre (c :: cs) ((c :: cs) ++ y) = true := by
      rw [isPre_append_long y (le_refl _)]
      exact isPre_refl _
    simp only [countFrom, h1, hzero]
    simp

theorem countSubstr_sandwich {pat : List Char} (x y : List Char) (hp : pat ≠ [])
    (hself : noTailPre pat pat = true) (hx : countSubstr pat x = 0)
    (hy : countSubstr pat y = 0) : countSubstr pat (x ++ (pat ++ y)) = 1 := by
  have hnt := noTailPre_iff.mp hself
  have hnt' : ∀ k, 0 < k → k < pat.length → isPre (pat.drop k) (pat ++ y) = false := by
    intro k hk hkl
    rw [isPre_append_long y (by simp)]
    exact hnt k hk hkl
  rw [countSubstr_append, countFrom_eq_of_noTail hp hnt' x, hx,
    countSubstr_append, countFrom_self hp hself, hy]

theorem countSubstr_le_countFrom {pat : List Char} (hp : pat ≠ []) (v : List Char) :
    ∀ u : List Char, countSubstr pat u ≤ countFrom pat v u
  | [] => by
    cases pat with
    | nil => exact absurd rfl hp
    | cons c cs => simp [countSubstr, countFrom, isPre]
  | c :: cs => by
    have hrec := countSubstr_le_countFrom hp v cs
    simp only [countSubstr, countFrom]
    by_cases hip : isPre pat (c :: cs) = true
    · have h2 : isPre pat ((c :: cs) ++ v) = true := by
        rw [isPre_append_long v (isPre_length hip)]
        exact hip
      rw [hip, h2]
      simpa using hrec
    · rw [Bool.not_eq_true] at hip
      rw [hip]
      cases h2 : isPre pat ((c :: cs) ++ v) <;> simp <;> omega

theorem countSubstr_zero_split {pat : List Char} (hp : pat ≠ []) {u v : List Char}
    (h : countSubstr pat (u ++ v) = 0) :
    countSubstr pat u = 0 ∧ countSubstr pat v = 0 := by
  rw [countSubstr_append] at h
  have h1 : countFrom pat v u = 0 := by omega
  have h2 : countSubstr pat v = 0 := by omega
  have h3 := countSubstr_le_countFrom hp v u
  exact ⟨by omega, h2⟩

theorem noTailPre_append {pat b1 : List Char} (b2 : List Char)
    (hlen : pat.length ≤ b1.length + 1) (h : noTailPre pat b1 = true) :
    noTailPre pat (b1 ++ b2) = true := by
  rw [noTailPre_iff] at h ⊢
  intro k hk hkl
  rw [isPre_append_long b2 (by simp; omega)]
  exact h k hk hkl

theorem countSubstr_head_notMem {c : Char} {t : List Char} :
    ∀ {s : List Char}, c ∉ s → countSubstr (c :: t) s = 0
  | [], _ => rfl
  | d :: ds, h => by
    have hcd : ¬(c = d) := fun he => h (he ▸ List.mem_cons_self _ _)
    have hip : isPre (c :: t) (d :: ds) = false := by
      simp [isPre, hcd]
    simp only [countSubstr, hip,
      countSubstr_head_notMem (fun hm => h (List.mem_cons_of_mem _ hm))]
    rfl

theorem head_mem_of_contains {c : Char} {t : List Char} :
    ∀ {s : List Char}, containsSubstr (c :: t) s = true → c ∈ s
  | [], h => by simp [containsSubstr, isPre] at h
  | d :: ds, h => by
    simp only [containsSubstr, Bool.or_eq_true] at h
    rcases h with h | h
    · simp only [isPre, Bool.and_eq_true, decide_eq_true_eq] at h
      rw [h.1]
      exact List.mem_cons_self _ _
    · exact List.mem_cons_of_mem _ (head_mem_of_contains h)

theorem contains_single_iff {c : Char} :
    ∀ {s : List Char}, containsSubstr [c] s = true ↔ c ∈ s
  | [] => by simp [containsSubstr, isPre]
  | d :: ds => by
    simp only [containsSubstr, Bool.or_eq_true, isPre, Bool.and_eq_true, decide_eq_true_eq,
      List.mem_cons]
    rw [contains_single_iff]
    simp [isPre]

theorem hexDigit_ne_slash (m : Nat) (hm : m < 16) : hexDigit m ≠ '/' := by
  interval_cases m <;> decide

theorem utf8Bytes_lt (c : Char) : ∀ b ∈ utf8Bytes c, b < 256 := by
  have hv : c.toNat < 1114112 := by
    rcases c.valid with h | h
    · exact Nat.lt_trans h (by norm_num)
    · exact h.2
  intro b hb
  simp only [utf8Bytes] at hb
  split at hb
  · simp at hb; omega
  · split at hb
    · simp at hb
      rcases hb with h1 | h1 <;> omega
    · split at hb
      · simp at hb
        rcases hb with h1 | h1 | h1 <;> omega
      · simp at hb
        rcases hb with h1 | h1 | h1 | h1 <;> omega

theorem percentEncodeByte_ne_slash (b : Nat) (hb : b < 256) :
    ∀ ch ∈ percentEncodeByte b, ch ≠ '/' := by
  intro ch hch
  simp only [percentEncodeByte, List.mem_cons, List.not_mem_nil, or_false] at hch
  rcases hch with rfl | rfl | rfl
  · decide
  · exact hexDigit_ne_slash _ (by omega)
  · exact hexDigit_ne_slash _ (Nat.mod_lt _ (by omega))

theorem formUrlEncodeChar_ne_slash (c : Char) : ∀ ch ∈ formUrlEncodeChar c, ch ≠ '/' := by
  intro ch hch
  unfold formUrlEncodeChar at hch
  split at hch
  · next hres =>
    simp only [List.mem_singleton] at hch
    subst hch
    intro he
    subst he
    exact absurd hres (by decide)
  · split at hch
    · simp only [List.mem_singleton] at hch
      subst hch
      decide
    · simp only [List.mem_flatMap] at hch
      obtain ⟨b, hb, hmem⟩ := hch
      exact percentEncodeByte_ne_slash b (utf8Bytes_lt c b hb) ch hmem

theorem formUrlEncode_ne_slash (s : String) : ∀ ch ∈ (formUrlEncode s).data, ch ≠ '/' := by
  intro ch hch
  simp only [formUrlEncode, List.mem_flatMap] at hch
  obtain ⟨c, _, hmem⟩ := hch
  exact formUrlEncodeChar_ne_slash c ch hmem

theorem joinAmp_ne_slash :
    ∀ L : List String, (∀ p ∈ L, ∀ ch ∈ p.data, ch ≠ '/') →
      ∀ ch ∈ (joinAmp L).data, ch ≠ '/'
  | [], _, ch, hch => by simp [joinAmp] at hch
  | [p], h, ch, hch => h p (List.mem_singleton.mpr rfl) ch hch
  | p :: q :: rest, h, ch, hch => by
    simp only [joinAmp, strData_append, List.append_assoc, List.mem_append] at hch
    rcases hch with h1 | h1 | h1
    · exact h p (List.mem_cons_self _ _) ch h1
    · have h2 : ch = '&' := by simpa using h1
      subst h2
      decide
    · exact joinAmp_ne_slash (q :: rest) (fun r hr => h r (List.mem_cons_of_mem _ hr)) ch h1

theorem searchParams_ne_slash (params : List (String × String)) :
    ∀ ch ∈ (searchParamsToString params).data, ch ≠ '/' := by
  apply joinAmp_ne_slash
  intro p hp ch hch
  simp only [List.mem_map] at hp
  obtain ⟨q, _, hq⟩ := hp
  rw [← hq, strData_append, strData_append] at hch
  rcases List.mem_append.mp hch with h1 | h1
  · rcases List.mem_append.mp h1 with h2 | h2
    · exact formUrlEncode_ne_slash _ ch h2
    · simp at h2
      subst h2
      decide
  · exact formUrlEncode_ne_slash _ ch h1

theorem replaceFirstCI_of_not_contains {pat rep : List Char} :
    ∀ {s : List Char}, containsCI pat s = false → replaceFirstCI pat rep s = s
  | [], _ => rfl
  | c :: cs, h => by
    rw [containsCI, Bool.or_eq_false_iff] at h
    simp only [replaceFirstCI, h.1, Bool.false_eq_true, if_false]
    rw [replaceFirstCI_of_not_contains h.2]

theorem replaceFirstCI_spec (pat rep : List Char) (hp : pat ≠ []) :
    ∀ {s : List Char}, containsCI pat s = true →
      ∃ pre suf, s = pre ++ suf ∧ isPreCI pat suf = true ∧
        replaceFirstCI pat rep s = pre ++ (rep ++ suf.drop pat.length)
  | [], h => by
    cases pat with
    | nil => exact absurd rfl hp
    | cons x xs => simp [containsCI, isPreCI] at h
  | c :: cs, h => by
    by_cases hp1 : isPreCI pat (c :: cs) = true
    · exact ⟨[], c :: cs, rfl, hp1, by simp [replaceFirstCI, hp1]⟩
    · have h2 : containsCI pat cs = true := by
        rw [containsCI, Bool.or_eq_true] at h
        rcases h with h | h
        · exact absurd h hp1
        · exact h
      obtain ⟨pre, suf, hs, hpre, hrw⟩ := replaceFirstCI_spec pat rep hp h2
      refine ⟨c :: pre, suf, by simp [hs], hpre, ?_⟩
      rw [Bool.not_eq_true] at hp1
      simp only [replaceFirstCI, hp1, Bool.false_eq_true, if_false, hrw, List.cons_append]

theorem replaceNewlinesWithBr_data (s : String) :
    (replaceNewlinesWithBr s).data = s.data.flatMap brChar := rfl

theorem br_no_marker : ∀ l : List Char, '<' ∉ l →
    containsSubstr ("<html>".data) (l.flatMap brChar) = false ∧
    containsSubstr ("<body>".data) (l.flatMap brChar) = false
  | [], _ => ⟨rfl, rfl⟩
  | c :: cs, h => by
    have hc : ¬(c = '<') := fun he => h (he ▸ List.mem_cons_self _ _)
    have ih := br_no_marker cs (fun hm => h (List.mem_cons_of_mem _ hm))
    by_cases hn : c = '\n'
    · subst hn
      have hfm : (('\n') :: cs).flatMap brChar = '<' :: 'b' :: 'r' :: '>' :: cs.flatMap brChar := by
        simp [brChar]
    
      constructor
      · rw [hfm]
        have e1 : isPre ("<html>".data) ('<' :: 'b' :: 'r' :: '>' :: cs.flatMap brChar) = false := rfl
        have e2 : isPre ("<html>".data) ('b' :: 'r' :: '>' :: cs.flatMap brChar) = false := rfl
        have e3 : isPre ("<html>".data) ('r' :: '>' :: cs.flatMap brChar) = false := rfl
        have e4 : isPre ("<html>".data) ('>' :: cs.flatMap brChar) = false := rfl
        simp only [containsSubstr, e1, e2, e3, e4, Bool.false_or]
        exact ih.1
      · rw [hfm]
        have e1 : isPre ("<body>".data) ('<' :: 'b' :: 'r' :: '>' :: cs.flatMap brChar) = false := rfl
        have e2 : isPre ("<body>".data) ('b' :: 'r' :: '>' :: cs.flatMap brChar) = false := rfl
        have e3 : isPre ("<body>".data) ('r' :: '>' :: cs.flatMap brChar) = false := rfl
        have e4 : isPre ("<body>".data) ('>' :: cs.flatMap brChar) = false := rfl
        simp only [containsSubstr, e1, e2, e3, e4, Bool.false_or]
        exact ih.2
    · have hfm : ((c :: cs).flatMap brChar) = c :: cs.flatMap brChar := by
        simp [brChar, hn]
      rw [hfm]
      constructor
      · have e1 : isPre ("<html>".data) (c :: cs.flatMap brChar) = false := by
          rw [show ("<html>".data) = '<' :: "html>".data from rfl]
          simp [isPre, Ne.symm hc]
        simp only [containsSubstr, e1, Bool.false_or]
        exact ih.1
      · have e1 : isPre ("<body>".data) (c :: cs.flatMap brChar) = false := by
          rw [show ("<body>".data) = '<' :: "body>".data from rfl]
          simp [isPre, Ne.symm hc]
        simp only [containsSubstr, e1, Bool.false_or]
        exact ih.2

theorem params_count_unsub (params : List (String × String)) :
    countSubstr unsubPathToken (searchParamsToString params).data = 0 := by
  rw [show unsubPathToken = '/' :: "unsubscribe?".data from rfl]
  exact countSubstr_head_notMem
    (fun hm => searchParams_ne_slash params '/' hm rfl)

theorem params_count_track (params : List (String × String)) :
    countSubstr trackPathToken (searchParamsToString params).data = 0 := by
  rw [show trackPathToken = '/' :: "track/pixel?".data from rfl]
  exact countSubstr_head_notMem
    (fun hm => searchParams_ne_slash params '/' hm rfl)

set_option maxRecDepth 16384

theorem wrap_count_unsub (H SI A P : List Char)
    (hH : countSubstr unsubPathToken H = 0) (hSI : countSubstr unsubPathToken SI = 0)
    (hA : countSubstr unsubPathToken A = 0) (hP : countSubstr unsubPathToken P = 0) :
    countSubstr unsubPathToken
      (wrapW1.data ++ (H ++ (wrapSep.data ++ (footerF1.data ++ (SI ++ (footerF2.data ++ (A ++ (unsubPathToken ++ (P ++ (footerF3.data ++ (wrapSep.data ++ (pixelP1.data ++ (A ++ (trackPathToken ++ (P ++ (pixelP2.data ++ (wrapW2.data))))))))))))))))) = 1 := by
  have c1 : countSubstr unsubPathToken (footerF2.data ++ A) = 0 :=
    countSubstr_append_zero_left _ _ (by decide) hA (by decide)
  have c2 : countSubstr unsubPathToken (SI ++ (footerF2.data ++ A)) = 0 :=
    countSubstr_append_zero_right (by decide) hSI c1 (noTailPre_append _ (by decide) (by decide))
  have c3 : countSubstr unsubPathToken (footerF1.data ++ (SI ++ (footerF2.data ++ (A)))) = 0 :=
    countSubstr_append_zero_left _ _ (by decide) c2 (by decide)
  have c4 : countSubstr unsubPathToken (wrapSep.data ++ (footerF1.data ++ (SI ++ (footerF2.data ++ (A))))) = 0 :=
    countSubstr_append_zero_left _ _ (by decide) c3 (by decide)
  have c5 : countSubstr unsubPathToken (H ++ (wrapSep.data ++ (footerF1.data ++ (SI ++ (footerF2.data ++ (A)))))) = 0 := by
    refine countSubstr_append_zero_right (by decide) hH c4 ?_
    rw [show wrapSep.data ++ (footerF1.data ++ (SI ++ (footerF2.data ++ (A)))) = (wrapSep.data ++ footerF1.data) ++ (SI ++ (footerF2.data ++ (A))) from by
      simp [List.append_assoc]]
    exact noTailPre_append _ (by decide) (by decide)
  have c6 : countSubstr unsubPathToken (wrapW1.data ++ (H ++ (wrapSep.data ++ (footerF1.data ++ (SI ++ (footerF2.data ++ (A))))))) = 0 :=
    countSubstr_append_zero_left _ _ (by decide) c5 (by decide)
  have d1 : countSubstr unsubPathToken (pixelP2.data ++ wrapW2.data) = 0 := by decide
  have d2 : countSubstr unsubPathToken (P ++ (pixelP2.data ++ wrapW2.data)) = 0 :=
    countSubstr_append_zero_right (by decide) hP d1 (by decide)
  have d3 : countSubstr unsubPathToken (trackPathToken ++ (P ++ (pixelP2.data ++ (wrapW2.data)))) = 0 :=
    countSubstr_append_zero_left _ _ (by decide) d2 (by decide)
  have d4 : countSubstr unsubPathToken (A ++ (trackPathToken ++ (P ++ (pixelP2.data ++ (wrapW2.data))))) = 0 :=
    countSubstr_append_zero_right (by decide) hA d3 (noTailPre_append _ (by decide) (by decide))
  have d5 : countSubstr unsubPathToken (pixelP1.data ++ (A ++ (trackPathToken ++ (P ++ (pixelP2.data ++ (wrapW2.data)))))) = 0 :=
    countSubstr_append_zero_left _ _ (by decide) d4 (by decide)
  have d6 : countSubstr unsubPathToken (wrapSep.data ++ (pixelP1.data ++ (A ++ (trackPathToken ++ (P ++ (pixelP2.data ++ (wrapW2.data))))))) = 0 :=
    countSubstr_append_zero_left _ _ (by decide) d5 (by decide)
  have d7 : countSubstr unsubPathToken (footerF3.data ++ (wrapSep.data ++ (pixelP1.data ++ (A ++ (trackPathToken ++ (P ++ (pixelP2.data ++ (wrapW2.data)))))))) = 0 :=
    countSubstr_append_zero_left _ _ (by decide) d6 (by decide)
  have d8 : countSubstr unsubPathToken (P ++ (footerF3.data ++ (wrapSep.data ++ (pixelP1.data ++ (A ++ (trackPathToken ++ (P ++ (pixelP2.data ++ (wrapW2.data))))))))) = 0 :=
    countSubstr_append_zero_right (by decide) hP d7 (noTailPre_append _ (by decide) (by decide))
  have hgr : (wrapW1.data ++ (H ++ (wrapSep.data ++ (footerF1.data ++ (SI ++ (footerF2.data ++ (A ++ (unsubPathToken ++ (P ++ (footerF3.data ++ (wrapSep.data ++ (pixelP1.data ++ (A ++ (trackPathToken ++ (P ++ (pixelP2.data ++ (wrapW2.data))))))))))))))))) =
      (wrapW1.data ++ (H ++ (wrapSep.data ++ (footerF1.data ++ (SI ++ (footerF2.data ++ (A))))))) ++
        (unsubPathToken ++ (P ++ (footerF3.data ++ (wrapSep.data ++ (pixelP1.data ++ (A ++ (trackPathToken ++ (P ++ (pixelP2.data ++ (wrapW2.data)))))))))) := by
    simp [List.append_assoc]
  rw [hgr]
  exact countSubstr_sandwich _ _ (by decide) (by decide) c6 d8


theorem wrap_count_track (H SI A P : List Char)
    (hH : countSubstr trackPathToken H = 0) (hSI : countSubstr trackPathToken SI = 0)
    (hA : countSubstr trackPathToken A = 0) (hP : countSubstr trackPathToken P = 0) :
    countSubstr trackPathToken
      (wrapW1.data ++ (H ++ (wrapSep.data ++ (footerF1.data ++ (SI ++ (footerF2.data ++ (A ++ (unsubPathToken ++ (P ++ (footerF3.data ++ (wrapSep.data ++ (pixelP1.data ++ (A ++ (trackPathToken ++ (P ++ (pixelP2.data ++ (wrapW2.data))))))))))))))))) = 1 := by
  have e1 : countSubstr trackPathToken (pixelP1.data ++ A) = 0 :=
    countSubstr_append_zero_left _ _ (by decide) hA (by decide)
  have e2 : countSubstr trackPathToken (wrapSep.data ++ (pixelP1.data ++ (A))) = 0 :=
    countSubstr_append_zero_left _ _ (by decide) e1 (by decide)
  have e3 : countSubstr trackPathToken (footerF3.data ++ (wrapSep.data ++ (pixelP1.data ++ (A)))) = 0 :=
    countSubstr_append_zero_left _ _ (by decide) e2 (by decide)
  have e4 : countSubstr trackPathToken (P ++ (footerF3.data ++ (wrapSep.data ++ (pixelP1.data ++ (A))))) = 0 :=
    countSubstr_append_zero_right (by decide) hP e3 (noTailPre_append _ (by decide) (by decide))
  have e5 : countSubstr trackPathToken (unsubPathToken ++ (P ++ (footerF3.data ++ (wrapSep.data ++ (pixelP1.data ++ (A)))))) = 0 :=
    countSubstr_append_zero_left _ _ (by decide) e4 (by decide)
  have e6 : countSubstr trackPathToken (A ++ (unsubPathToken ++ (P ++ (footerF3.data ++ (wrapSep.data ++ (pixelP1.data ++ (A))))))) = 0 :=
    countSubstr_append_zero_right (by decide) hA e5 (noTailPre_append _ (by decide) (by decide))
  have e7 : countSubstr trackPathToken (footerF2.data ++ (A ++ (unsubPathToken ++ (P ++ (footerF3.data ++ (wrapSep.data ++ (pixelP1.data ++ (A)))))))) = 0 :=
    countSubstr_append_zero_left _ _ (by decide) e6 (by decide)
  have e8 : countSubstr trackPathToken (SI ++ (footerF2.data ++ (A ++ (unsubPathToken ++ (P ++ (footerF3.data ++ (wrapSep.data ++ (pixelP1.data ++ (A))))))))) = 0 :=
    countSubstr_append_zero_right (by decide) hSI e7 (noTailPre_append _ (by decide) (by decide))
  have e9 : countSubstr trackPathToken (footerF1.data ++ (SI ++ (footerF2.data ++ (A ++ (unsubPathToken ++ (P ++ (footerF3.data ++ (wrapSep.data ++ (pixelP1.data ++ (A)))))))))) = 0 :=
    countSubstr_append_zero_left _ _ (by decide) e8 (by decide)
  have e10 : countSubstr trackPathToken (wrapSep.data ++ (footerF1.data ++ (SI ++ (footerF2.data ++ (A ++ (unsubPathToken ++ (P ++ (footerF3.data ++ (wrapSep.data ++ (pixelP1.data ++ (A))))))))))) = 0 :=
    countSubstr_append_zero_left _ _ (by decide) e9 (by decide)
  have e11 : countSubstr trackPathToken
      (H ++ (wrapSep.data ++ (footerF1.data ++ (SI ++ (footerF2.data ++ (A ++ (unsubPathToken ++ (P ++ (footerF3.data ++ (wrapSep.data ++ (pixelP1.data ++ (A)))))))))))) = 0 := by
    refine countSubstr_append_zero_right (by decide) hH e10 ?_
    rw [show wrapSep.data ++ (footerF1.data ++ (SI ++ (footerF2.data ++ (A ++ (unsubPathToken ++ (P ++ (footerF3.data ++ (wrapSep.data ++ (pixelP1.data ++ (A)))))))))) =
        (wrapSep.data ++ footerF1.data) ++ (SI ++ (footerF2.data ++ (A ++ (unsubPathToken ++ (P ++ (footerF3.data ++ (wrapSep.data ++ (pixelP1.data ++ (A))))))))) from by
      simp [List.append_assoc]]
    exact noTailPre_append _ (by decide) (by decide)
  have e12 : countSubstr trackPathToken
      (wrapW1.data ++ (H ++ (wrapSep.data ++ (footerF1.data ++ (SI ++ (footerF2.data ++ (A ++ (unsubPathToken ++ (P ++ (footerF3.data ++ (wrapSep.data ++ (pixelP1.data ++ (A))))))))))))) = 0 :=
    countSubstr_append_zero_left _ _ (by decide) e11 (by decide)
  have f1 : countSubstr trackPathToken (pixelP2.data ++ wrapW2.data) = 0 := by decide
  have f2 : countSubstr trackPathToken (P ++ (pixelP2.data ++ wrapW2.data)) = 0 :=
    countSubstr_append_zero_right (by decide) hP f1 (by decide)
  have hgr : (wrapW1.data ++ (H ++ (wrapSep.data ++ (footerF1.data ++ (SI ++ (footerF2.data ++ (A ++ (unsubPathToken ++ (P ++ (footerF3.data ++ (wrapSep.data ++ (pixelP1.data ++ (A ++ (trackPathToken ++ (P ++ (pixelP2.data ++ (wrapW2.data))))))))))))))))) =
      (wrapW1.data ++ (H ++ (wrapSep.data ++ (footerF1.data ++ (SI ++ (footerF2.data ++ (A ++ (unsubPathToken ++ (P ++ (footerF3.data ++ (wrapSep.data ++ (pixelP1.data ++ (A))))))))))))) ++
        (trackPathToken ++ (P ++ (pixelP2.data ++ wrapW2.data))) := by
    simp [List.append_assoc]
  rw [hgr]
  exact countSubstr_sandwich _ _ (by decide) (by decide) e12 f2


theorem repl_count_unsub (pre post SI A P : List Char)
    (hpre : countSubstr unsubPathToken pre = 0) (hpost : countSubstr unsubPathToken post = 0)
    (hSI : countSubstr unsubPathToken SI = 0) (hA : countSubstr unsubPathToken A = 0)
    (hP : countSubstr unsubPathToken P = 0) :
    countSubstr unsubPathToken
      (pre ++ (footerF1.data ++ (SI ++ (footerF2.data ++ (A ++ (unsubPathToken ++ (P ++ (footerF3.data ++ (pixelP1.data ++ (A ++ (trackPathToken ++ (P ++ (pixelP2.data ++ (("</body>".data) ++ (post))))))))))))))) = 1 := by
  have g1 : countSubstr unsubPathToken (footerF2.data ++ A) = 0 :=
    countSubstr_append_zero_left _ _ (by decide) hA (by decide)
  have g2 : countSubstr unsubPathToken (SI ++ (footerF2.data ++ A)) = 0 :=
    countSubstr_append_zero_right (by decide) hSI g1 (noTailPre_append _ (by decide) (by decide))
  have g3 : countSubstr unsubPathToken (footerF1.data ++ (SI ++ (footerF2.data ++ (A)))) = 0 :=
    countSubstr_append_zero_left _ _ (by decide) g2 (by decide)
  have g4 : countSubstr unsubPathToken (pre ++ (footerF1.data ++ (SI ++ (footerF2.data ++ (A))))) = 0 :=
    countSubstr_append_zero_right (by decide) hpre g3 (noTailPre_append _ (by decide) (by decide))
  have k1 : countSubstr unsubPathToken (("</body>".data) ++ post) = 0 :=
    countSubstr_append_zero_left _ _ (by decide) hpost (by decide)
  have k2 : countSubstr unsubPathToken (pixelP2.data ++ (("</body>".data) ++ (post))) = 0 :=
    countSubstr_append_zero_left _ _ (by decide) k1 (by decide)
  have k3 : countSubstr unsubPathToken (P ++ (pixelP2.data ++ (("</body>".data) ++ (post)))) = 0 :=
    countSubstr_append_zero_right (by decide) hP k2 (noTailPre_append _ (by decide) (by decide))
  have k4 : countSubstr unsubPathToken (trackPathToken ++ (P ++ (pixelP2.data ++ (("</body>".data) ++ (post))))) = 0 :=
    countSubstr_append_zero_left _ _ (by decide) k3 (by decide)
  have k5 : countSubstr unsubPathToken (A ++ (trackPathToken ++ (P ++ (pixelP2.data ++ (("</body>".data) ++ (post)))))) = 0 :=
    countSubstr_append_zero_right (by decide) hA k4 (noTailPre_append _ (by decide) (by decide))
  have k6 : countSubstr unsubPathToken (pixelP1.data ++ (A ++ (trackPathToken ++ (P ++ (pixelP2.data ++ (("</body>".data) ++ (post))))))) = 0 :=
    countSubstr_append_zero_left _ _ (by decide) k5 (by decide)
  have k7 : countSubstr unsubPathToken (footerF3.data ++ (pixelP1.data ++ (A ++ (trackPathToken ++ (P ++ (pixelP2.data ++ (("</body>".data) ++ (post)))))))) = 0 :=
    countSubstr_append_zero_left _ _ (by decide) k6 (by decide)
  have k8 : countSubstr unsubPathToken (P ++ (footerF3.data ++ (pixelP1.data ++ (A ++ (trackPathToken ++ (P ++ (pixelP2.data ++ (("</body>".data) ++ (post))))))))) = 0 :=
    countSubstr_append_zero_right (by decide) hP k7 (noTailPre_append _ (by decide) (by decide))
  have hgr : (pre ++ (footerF1.data ++ (SI ++ (footerF2.data ++ (A ++ (unsubPathToken ++ (P ++ (footerF3.data ++ (pixelP1.data ++ (A ++ (trackPathToken ++ (P ++ (pixelP2.data ++ (("</body>".data) ++ (post))))))))))))))) =
      (pre ++ (footerF1.data ++ (SI ++ (footerF2.data ++ (A))))) ++
        (unsubPathToken ++ (P ++ (footerF3.data ++ (pixelP1.data ++ (A ++ (trackPathToken ++ (P ++ (pixelP2.data ++ (("</body>".data) ++ (post)))))))))) := by
    simp [List.append_assoc]
  rw [hgr]
  exact countSubstr_sandwich _ _ (by decide) (by decide) g4 k8


theorem repl_count_track (pre post SI A P : List Char)
    (hpre : countSubstr trackPathToken pre = 0) (hpost : countSubstr trackPathToken post = 0)
    (hSI : countSubstr trackPathToken SI = 0) (hA : countSubstr trackPathToken A = 0)
    (hP : countSubstr trackPathToken P = 0) :
    countSubstr trackPathToken
      (pre ++ (footerF1.data ++ (SI ++ (footerF2.data ++ (A ++ (unsubPathToken ++ (P ++ (footerF3.data ++ (pixelP1.data ++ (A ++ (trackPathToken ++ (P ++ (pixelP2.data ++ (("</body>".data) ++ (post))))))))))))))) = 1 := by
  have m1 : countSubstr trackPathToken (pixelP1.data ++ A) = 0 :=
    countSubstr_append_zero_left _ _ (by decide) hA (by decide)
  have m2 : countSubstr trackPathToken (footerF3.data ++ (pixelP1.data ++ (A))) = 0 :=
    countSubstr_append_zero_left _ _ (by decide) m1 (by decide)
  have m3 : countSubstr trackPathToken (P ++ (footerF3.data ++ (pixelP1.data ++ (A)))) = 0 :=
    countSubstr_append_zero_right (by decide) hP m2 (noTailPre_append _ (by decide) (by decide))
  have m4 : countSubstr trackPathToken (unsubPathToken ++ (P ++ (footerF3.data ++ (pixelP1.data ++ (A))))) = 0 :=
    countSubstr_append_zero_left _ _ (by decide) m3 (by decide)
  have m5 : countSubstr trackPathToken (A ++ (unsubPathToken ++ (P ++ (footerF3.data ++ (pixelP1.data ++ (A)))))) = 0 :=
    countSubstr_append_zero_right (by decide) hA m4 (noTailPre_append _ (by decide) (by decide))
  have m6 : countSubstr trackPathToken (footerF2.data ++ (A ++ (unsubPathToken ++ (P ++ (footerF3.data ++ (pixelP1.data ++ (A))))))) = 0 :=
    countSubstr_append_zero_left _ _ (by decide) m5 (by decide)
  have m7 : countSubstr trackPathToken (SI ++ (footerF2.data ++ (A ++ (unsubPathToken ++ (P ++ (footerF3.data ++ (pixelP1.data ++ (A)))))))) = 0 :=
    countSubstr_append_zero_right (by decide) hSI m6 (noTailPre_append _ (by decide) (by decide))
  have m8 : countSubstr trackPathToken (footerF1.data ++ (SI ++ (footerF2.data ++ (A ++ (unsubPathToken ++ (P ++ (footerF3.data ++ (pixelP1.data ++ (A))))))))) = 0 :=
    countSubstr_append_zero_left _ _ (by decide) m7 (by decide)
  have m9 : countSubstr trackPathToken (pre ++ (footerF1.data ++ (SI ++ (footerF2.data ++ (A ++ (unsubPathToken ++ (P ++ (footerF3.data ++ (pixelP1.data ++ (A)))))))))) = 0 :=
    countSubstr_append_zero_right (by decide) hpre m8 (noTailPre_append _ (by decide) (by decide))
  have n1 : countSubstr trackPathToken (("</body>".data) ++ post) = 0 :=
    countSubstr_append_zero_left _ _ (by decide) hpost (by decide)
  have n2 : countSubstr trackPathToken (pixelP2.data ++ (("</body>".data) ++ (post))) = 0 :=
    countSubstr_append_zero_left _ _ (by decide) n1 (by decide)
  have n3 : countSubstr trackPathToken (P ++ (pixelP2.data ++ (("</body>".data) ++ (post)))) = 0 :=
    countSubstr_append_zero_right (by decide) hP n2 (noTailPre_append _ (by decide) (by decide))
  have hgr : (pre ++ (footerF1.data ++ (SI ++ (footerF2.data ++ (A ++ (unsubPathToken ++ (P ++ (footerF3.data ++ (pixelP1.data ++ (A ++ (trackPathToken ++ (P ++ (pixelP2.data ++ (("</body>".data) ++ (post))))))))))))))) =
      (pre ++ (footerF1.data ++ (SI ++ (footerF2.data ++ (A ++ (unsubPathToken ++ (P ++ (footerF3.data ++ (pixelP1.data ++ (A)))))))))) ++
        (trackPathToken ++ (P ++ (pixelP2.data ++ (("</body>".data) ++ (post))))) := by
    simp [List.append_assoc]
  rw [hgr]
  exact countSubstr_sandwich _ _ (by decide) (by decide) m9 n3

theorem strMkList_data (l : List Char) : (⟨l⟩ : String).data = l := rfl

/-- Claim C10: if the content carries an `<html>` or `<body>` marker but no
case-insensitive `</body>` tag, `processEmailContent` returns the content
unchanged (injecting neither the tracking pixel nor the unsubscribe link);
for every other content, the produced HTML contains the tracking-pixel URL
path `/track/pixel?` and the unsubscribe URL path `/unsubscribe?` exactly
once each — these paths pin down the injected `<img>` tag and unsubscribe
`<a>` link.  The hypotheses state that none of the interpolated inputs
(content, API base URL, sender info) already contains either path. -/
theorem processEmailContent_injection
    (configuredApiUrl : Option String) (content emailId recipientEmail : String)
    (userProfile : Option UserProfile) (campaignId contactId councillorId : Option String)
    (hH1 : countSubstr trackPathToken (htmlContentOf content).data = 0)
    (hH2 : countSubstr unsubPathToken (htmlContentOf content).data = 0)
    (hA1 : countSubstr trackPathToken (apiBaseUrlOf configuredApiUrl).data = 0)
    (hA2 : countSubstr unsubPathToken (apiBaseUrlOf configuredApiUrl).data = 0)
    (hS1 : countSubstr trackPathToken (senderInfoOf userProfile).data = 0)
    (hS2 : countSubstr unsubPathToken (senderInfoOf userProfile).data = 0) :
    ((jsIncludes content "<html>" || jsIncludes content "<body>") = true →
        containsCI ("</body>".data) content.data = false →
        processEmailContent configuredApiUrl content emailId recipientEmail userProfile
          campaignId contactId councillorId = content) ∧
    ((jsIncludes content "<html>" || jsIncludes content "<body>") = false ∨
        containsCI ("</body>".data) content.data = true →
      countSubstr trackPathToken
          (processEmailContent configuredApiUrl content emailId recipientEmail userProfile
            campaignId contactId councillorId).data = 1 ∧
      countSubstr unsubPathToken
          (processEmailContent configuredApiUrl content emailId recipientEmail userProfile
            campaignId contactId councillorId).data = 1) := by
  have hPE : processEmailContent configuredApiUrl content emailId recipientEmail userProfile
      campaignId contactId councillorId =
      (if !(jsIncludes (htmlContentOf content) "<html>") &&
          !(jsIncludes (htmlContentOf content) "<body>") then
        wrapW1 ++ htmlContentOf content ++ wrapSep ++
          unsubscribeFooterOf (senderInfoOf userProfile)
            (createUnsubscribeUrl configuredApiUrl emailId recipientEmail campaignId contactId
              councillorId) ++ wrapSep ++
          trackingPixelOf
            (createTrackingPixelUrl configuredApiUrl emailId recipientEmail campaignId contactId
              councillorId) ++ wrapW2
      else
        ⟨replaceFirstCI ("</body>".data)
          ((unsubscribeFooterOf (senderInfoOf userProfile)
              (createUnsubscribeUrl configuredApiUrl emailId recipientEmail campaignId contactId
                councillorId) ++
            trackingPixelOf
              (createTrackingPixelUrl configuredApiUrl emailId recipientEmail campaignId contactId
                councillorId) ++ "</body>").data)
          (htmlContentOf content).data⟩) := rfl
  constructor
  · intro hm hnb
    have hlt : jsIncludes content "<" = true := by
      have hm2 : jsIncludes content "<html>" = true ∨ jsIncludes content "<body>" = true := by
        simpa using hm
      rcases hm2 with h | h
      · exact contains_single_iff.mpr
          (head_mem_of_contains
            (show containsSubstr ('<' :: "html>".data) content.data = true from h))
      · exact contains_single_iff.mpr
          (head_mem_of_contains
            (show containsSubstr ('<' :: "body>".data) content.data = true from h))
    have hhc : htmlContentOf content = content := by
      simp [htmlContentOf, hlt]
    rw [hPE, hhc]
    have hcond : (!(jsIncludes content "<html>") && !(jsIncludes content "<body>")) = false := by
      have hm2 : jsIncludes content "<html>" = true ∨ jsIncludes content "<body>" = true := by
        simpa using hm
      rcases hm2 with h | h <;> simp [h]
    rw [if_neg (by simp [hcond])]
    rw [replaceFirstCI_of_not_contains hnb]
  · intro hcond
    by_cases hw : (!(jsIncludes (htmlContentOf content) "<html>") &&
        !(jsIncludes (htmlContentOf content) "<body>")) = true
    · refine ⟨?_, ?_⟩
      · rw [hPE, if_pos hw]
        simp only [unsubscribeFooterOf, trackingPixelOf, createUnsubscribeUrl,
          createTrackingPixelUrl, strData_append, List.append_assoc]
        exact wrap_count_track _ _ _ _ hH1 hS1 hA1 (params_count_track _)
      · rw [hPE, if_pos hw]
        simp only [unsubscribeFooterOf, trackingPixelOf, createUnsubscribeUrl,
          createTrackingPixelUrl, strData_append, List.append_assoc]
        exact wrap_count_unsub _ _ _ _ hH2 hS2 hA2 (params_count_unsub _)
    · rw [Bool.not_eq_true] at hw
      have hmk : (jsIncludes (htmlContentOf content) "<html>" ||
          jsIncludes (htmlContentOf content) "<body>") = true := by
        cases ha : jsIncludes (htmlContentOf content) "<html>" <;>
          cases hb : jsIncludes (htmlContentOf content) "<body>" <;> simp_all
      have hci' : containsCI ("</body>".data) (htmlContentOf content).data = true := by
        by_cases hlt : jsIncludes content "<" = true
        · have hhc : htmlContentOf content = content := by simp [htmlContentOf, hlt]
          rcases hcond with hno | hci
          · rw [hhc] at hmk
            simp [hno] at hmk
          · rw [hhc]
            exact hci
        · exfalso
          have hnm : '<' ∉ content.data := fun hmem =>
            hlt (contains_single_iff.mpr hmem)
          have hlt' : jsIncludes content "<" = false := by
            cases h : jsIncludes content "<"
            · rfl
            · exact absurd h hlt
          have hbr : htmlContentOf content = replaceNewlinesWithBr content := by
            simp [htmlContentOf, hlt']
          have hmark := br_no_marker content.data hnm
          rw [hbr] at hmk
          simp only [jsIncludes, replaceNewlinesWithBr_data] at hmk
          have hmk2 : containsSubstr ("<html>".data) (content.data.flatMap brChar) = true ∨
              containsSubstr ("<body>".data) (content.data.flatMap brChar) = true := by
            simpa using hmk
          rcases hmk2 with h | h
          · rw [hmark.1] at h
            cases h
          · rw [hmark.2] at h
            cases h
      obtain ⟨pre, suf, hs, hpci, hrw⟩ :=
        replaceFirstCI_spec ("</body>".data)
          ((unsubscribeFooterOf (senderInfoOf userProfile)
              (createUnsubscribeUrl configuredApiUrl emailId recipientEmail campaignId contactId
                councillorId) ++
            trackingPixelOf
              (createTrackingPixelUrl configuredApiUrl emailId recipientEmail campaignId contactId
                councillorId) ++ "</body>").data)
          (by decide) hci'
      have hsplitT : countSubstr trackPathToken pre = 0 ∧ countSubstr trackPathToken suf = 0 :=
        countSubstr_zero_split (by decide) (hs ▸ hH1)
      have hsplitU : countSubstr unsubPathToken pre = 0 ∧ countSubstr unsubPathToken suf = 0 :=
        countSubstr_zero_split (by decide) (hs ▸ hH2)
      have hdropT2 : countSubstr trackPathToken (suf.take (("</body>".data).length)) = 0 ∧
          countSubstr trackPathToken (suf.drop (("</body>".data).length)) = 0 :=
        countSubstr_zero_split (by decide)
          (by rw [List.take_append_drop]; exact hsplitT.2)
      have hdropU2 : countSubstr unsubPathToken (suf.take (("</body>".data).length)) = 0 ∧
          countSubstr unsubPathToken (suf.drop (("</body>".data).length)) = 0 :=
        countSubstr_zero_split (by decide)
          (by rw [List.take_append_drop]; exact hsplitU.2)
      have hdropT := hdropT2.2
      have hdropU := hdropU2.2
      refine ⟨?_, ?_⟩
      · rw [hPE, if_neg (by simp [hw])]
        rw [strMkList_data, hrw]
        simp only [unsubscribeFooterOf, trackingPixelOf, createUnsubscribeUrl,
          createTrackingPixelUrl, strData_append, List.append_assoc]
        exact repl_count_track _ _ _ _ _ hsplitT.1 hdropT hS1 hA1 (params_count_track _)
      · rw [hPE, if_neg (by simp [hw])]
        rw [strMkList_data, hrw]
        simp only [unsubscribeFooterOf, trackingPixelOf, createUnsubscribeUrl,
          createTrackingPixelUrl, strData_append, List.append_assoc]
        exact repl_count_unsub _ _ _ _ _ hsplitU.1 hdropU hS2 hA2 (params_count_unsub _)

theorem processEmailContent_injection_witness :
    (((jsIncludes "hello" "<html>" || jsIncludes "hello" "<body>") = true →
        containsCI ("</body>".data) "hello".data = false →
        processEmailContent none "hello" "e" "r@x.com" none none none none = "hello") ∧
      ((jsIncludes "hello" "<html>" || jsIncludes "hello" "<body>") = false ∨
          containsCI ("</body>".data) "hello".data = true →
        countSubstr trackPathToken
            (processEmailContent none "hello" "e" "r@x.com" none none none none).data = 1 ∧
        countSubstr unsubPathToken
            (processEmailContent none "hello" "e" "r@x.com" none none none none).data = 1)) :=
  processEmailContent_injection none "hello" "e" "r@x.com" none none none none
    (by decide) (by decide) (by decide) (by decide) (by decide) (by decide)
